import Mathlib

/-!
Verification development for the `pulp_optimization` repository.

The repository formulates two mixed-integer linear programs with the PuLP
library:

* `src/carrier_earned_discount.py` (duplicated in
  `src/problems/carrier_earned_discount/main.py`): a tiered-discount carrier
  allocation over years, carriers, tiers and destinations;
* `src/warehouse_shipments.py`: a warehouse/destination network allocation
  with fixed activation costs and a delivery-time tolerance.

We shallowly embed the models these scripts build.  Python strings are
embedded as `List Char` (`Str`), Python numbers as `ℚ` (Python ints are the
integer-valued rationals), PuLP variables as an inductive index type, PuLP
affine expressions as explicit lists of (coefficient, variable) terms plus a
constant, and a PuLP problem as its list of variable declarations (name,
bounds, category), its objective expression and its list of constraints, in
the construction order of the source.  An assignment of values to variables
is a function from the index type to `ℚ`; feasibility is satisfaction of all
declared bounds, integrality/binarity categories, and constraints.
-/

/-- Python strings, embedded as lists of characters. -/
abbrev Str : Type := List Char

/-- `str(n)` for a Python non-negative int. -/
def natStr (n : Nat) : Str := (Nat.repr n).data

/-- PuLP variable category, as passed via `cat=` in the sources
(`"Integer"` or `"Binary"`; no continuous variable is declared). -/
inductive VarCat : Type
  | Integer
  | Binary
deriving DecidableEq

/-- A PuLP variable declaration: index (identity), name, optional bounds and
category, mirroring the `LpVariable(name, lowBound, upBound, cat)` calls. -/
structure VarDecl (ι : Type) : Type where
  idx : ι
  name : Str
  lowBound : Option ℚ
  upBound : Option ℚ
  cat : VarCat
deriving DecidableEq

/-- A PuLP affine expression: a list of (coefficient, variable) terms and a
constant. -/
structure LinExp (ι : Type) : Type where
  terms : List (ℚ × ι)
  const : ℚ
deriving DecidableEq

/-- Value of an affine expression under an assignment. -/
def LinExp.eval {ι : Type} (e : LinExp ι) (a : ι → ℚ) : ℚ :=
  (e.terms.map fun t => t.1 * a t.2).sum + e.const

/-- A bare variable used as an expression. -/
def var1 {ι : Type} (v : ι) : LinExp ι := ⟨[(1, v)], 0⟩

/-- `q * v` for a constant `q` and a variable `v`. -/
def termE {ι : Type} (q : ℚ) (v : ι) : LinExp ι := ⟨[(q, v)], 0⟩

/-- A constant expression. -/
def constE {ι : Type} (q : ℚ) : LinExp ι := ⟨[], q⟩

/-- `pulp.lpSum` over a list of expressions. -/
def lpSum {ι : Type} (es : List (LinExp ι)) : LinExp ι :=
  ⟨(es.map (·.terms)).flatten, (es.map (·.const)).sum⟩

/-- Scalar multiple of an expression (`tolerance * total_to_dest`). -/
def scaleExp {ι : Type} (q : ℚ) (e : LinExp ι) : LinExp ι :=
  ⟨e.terms.map fun t => (q * t.1, t.2), q * e.const⟩

/-- Sum of two expressions (`lpSum [...] + lpSum [...]`). -/
def addExp {ι : Type} (e₁ e₂ : LinExp ι) : LinExp ι :=
  ⟨e₁.terms ++ e₂.terms, e₁.const + e₂.const⟩

/-- Comparison operator of a PuLP constraint. -/
inductive CmpRel : Type
  | le
  | ge
  | eq
deriving DecidableEq

/-- A PuLP constraint, kept in the shape written in the source
(left expression, relation, right expression). -/
structure Constr (ι : Type) : Type where
  lhs : LinExp ι
  rel : CmpRel
  rhs : LinExp ι
deriving DecidableEq

/-- Satisfaction of a constraint by an assignment. -/
def Constr.sat {ι : Type} (c : Constr ι) (a : ι → ℚ) : Prop :=
  match c.rel with
  | .le => c.lhs.eval a ≤ c.rhs.eval a
  | .ge => c.rhs.eval a ≤ c.lhs.eval a
  | .eq => c.lhs.eval a = c.rhs.eval a

instance {ι : Type} (c : Constr ι) (a : ι → ℚ) : Decidable (c.sat a) :=
  match c with
  | ⟨lhs, .le, rhs⟩ => (inferInstance : Decidable (lhs.eval a ≤ rhs.eval a))
  | ⟨lhs, .ge, rhs⟩ => (inferInstance : Decidable (rhs.eval a ≤ lhs.eval a))
  | ⟨lhs, .eq, rhs⟩ => (inferInstance : Decidable (lhs.eval a = rhs.eval a))

/-- Optional lower bound. -/
def optLB : Option ℚ → ℚ → Prop
  | none, _ => True
  | some lb, x => lb ≤ x

instance : ∀ (o : Option ℚ) (x : ℚ), Decidable (optLB o x)
  | none, _ => .isTrue trivial
  | some _, _ => (inferInstance : Decidable (_ ≤ _))

/-- Optional upper bound. -/
def optUB : Option ℚ → ℚ → Prop
  | none, _ => True
  | some ub, x => x ≤ ub

instance : ∀ (o : Option ℚ) (x : ℚ), Decidable (optUB o x)
  | none, _ => .isTrue trivial
  | some _, _ => (inferInstance : Decidable (_ ≤ _))

/-- Category condition on a value: `Integer` means the rational is an
integer (denominator 1), `Binary` means it is 0 or 1. -/
def catOK : VarCat → ℚ → Prop
  | .Integer, x => x.den = 1
  | .Binary, x => x = 0 ∨ x = 1

instance : ∀ (c : VarCat) (x : ℚ), Decidable (catOK c x)
  | .Integer, _ => (inferInstance : Decidable (_ = _))
  | .Binary, _ => (inferInstance : Decidable (_ ∨ _))

/-- An assignment honours a variable declaration. -/
def VarDecl.holds {ι : Type} (d : VarDecl ι) (a : ι → ℚ) : Prop :=
  optLB d.lowBound (a d.idx) ∧ optUB d.upBound (a d.idx) ∧ catOK d.cat (a d.idx)

instance {ι : Type} (d : VarDecl ι) (a : ι → ℚ) : Decidable (d.holds a) :=
  (inferInstance : Decidable (_ ∧ _ ∧ _))

/-- A built model: declarations, objective, constraints. -/
structure Model (ι : Type) : Type where
  vars : List (VarDecl ι)
  objective : LinExp ι
  constraints : List (Constr ι)

/-- Feasibility: every declaration and every constraint is honoured. -/
def Model.Feasible {ι : Type} (m : Model ι) (a : ι → ℚ) : Prop :=
  (∀ d ∈ m.vars, d.holds a) ∧ (∀ c ∈ m.constraints, c.sat a)

instance {ι : Type} (m : Model ι) (a : ι → ℚ) : Decidable (m.Feasible a) :=
  (inferInstance : Decidable (_ ∧ _))

/-- Objective value of an assignment. -/
def Model.objValue {ι : Type} (m : Model ι) (a : ι → ℚ) : ℚ :=
  m.objective.eval a

/-- `a` is an optimal solution of the (minimisation) model. -/
def Model.IsOptimal {ι : Type} (m : Model ι) (a : ι → ℚ) : Prop :=
  m.Feasible a ∧ ∀ b : ι → ℚ, m.Feasible b → m.objValue a ≤ m.objValue b

/-! ### Basic evaluation lemmas -/

theorem eval_var1 {ι : Type} (v : ι) (a : ι → ℚ) : (var1 v).eval a = a v := by
  simp [var1, LinExp.eval]

theorem eval_termE {ι : Type} (q : ℚ) (v : ι) (a : ι → ℚ) :
    (termE q v).eval a = q * a v := by
  simp [termE, LinExp.eval]

theorem eval_constE {ι : Type} (q : ℚ) (a : ι → ℚ) : (constE q).eval a = q := by
  simp [constE, LinExp.eval]

theorem sum_map_add {α : Type} (l : List α) (f g : α → ℚ) :
    (l.map fun x => f x + g x).sum = (l.map f).sum + (l.map g).sum := by
  induction l with
  | nil => simp
  | cons x xs ih => simp [ih]; ring

theorem eval_lpSum {ι : Type} (es : List (LinExp ι)) (a : ι → ℚ) :
    (lpSum es).eval a = (es.map (fun e => e.eval a)).sum := by
  induction es with
  | nil => simp [lpSum, LinExp.eval]
  | cons e es ih =>
    simp only [lpSum, LinExp.eval, List.map_cons, List.flatten_cons, List.map_append,
      List.sum_append, List.sum_cons] at *
    linarith

theorem eval_scaleExp {ι : Type} (q : ℚ) (e : LinExp ι) (a : ι → ℚ) :
    (scaleExp q e).eval a = q * e.eval a := by
  unfold scaleExp LinExp.eval
  simp only [List.map_map]
  rw [mul_add]
  congr 1
  induction e.terms with
  | nil => simp
  | cons t ts ih => simp [ih]; ring

theorem eval_addExp {ι : Type} (e₁ e₂ : LinExp ι) (a : ι → ℚ) :
    (addExp e₁ e₂).eval a = e₁.eval a + e₂.eval a := by
  unfold addExp LinExp.eval
  rw [List.map_append, List.sum_append]
  ring

theorem sum_flatMap {α β : Type} (l : List α) (f : α → List β) (g : β → ℚ) :
    ((l.flatMap f).map g).sum = (l.map fun x => ((f x).map g).sum).sum := by
  induction l with
  | nil => simp
  | cons x xs ih => simp [List.flatMap_cons, List.sum_append, ih]

/-! ### Tiered-discount formulation, from `src/carrier_earned_discount.py` -/

/-- Variable identities of the carrier model: `shipment_at_tier` flow
variables and `tier_flag` binary variables. -/
inductive CVar : Type
  | ship (year : Nat) (carrier : Str) (tier : Nat) (dest : Str)
  | tierFlag (year : Nat) (carrier : Str) (tier : Nat)
deriving DecidableEq

/-- The parameters of `optimize_shipments` in `carrier_earned_discount.py`.
Python dicts are embedded as total functions on keys; the two Python `list`
parameters that the code indexes positionally (`shipment_target`,
`discount_rate[carrier]`, `tier_min_quantity`) stay lists. -/
structure CarrierInput : Type where
  num_years : Nat
  carriers : List Str
  destinations : List Str
  shipment_target : List (Str → ℚ)
  shipment_cost : Str → Str → ℚ
  tier_min_quantity : List ℚ
  discount_rate : Str → List ℚ

/-- Number of tiers, `len(tier_min_quantity)`. -/
def numTiers (inp : CarrierInput) : Nat := inp.tier_min_quantity.length

/-- `shipment_target[year][dest]`; total via `getD` (the builder
`optimize_shipments` below only returns a model when every `year` it uses is
in range, in which case `getD` agrees with the Python list access). -/
def targetAt (inp : CarrierInput) (y : Nat) (d : Str) : ℚ :=
  (inp.shipment_target.getD y (fun _ => 0)) d

/-- `discount_rate[carrier][tier]`, total via `getD` under the same proviso. -/
def discountAt (inp : CarrierInput) (c : Str) (t : Nat) : ℚ :=
  (inp.discount_rate c).getD t 0

/-- `tier_min_quantity[tier]`; the code only uses `tier` in range. -/
def tierMinAt (inp : CarrierInput) (t : Nat) : ℚ :=
  inp.tier_min_quantity.getD t 0

/-- `f"ship_y{year}_{carrier}_t{tier}_{dest}"`. -/
def shipName (y : Nat) (c : Str) (t : Nat) (d : Str) : Str :=
  "ship_y".data ++ natStr y ++ "_".data ++ c ++ "_t".data ++ natStr t ++ "_".data ++ d

/-- `f"tier_y{year}_{carrier}_t{tier}"`. -/
def tierFlagName (y : Nat) (c : Str) (t : Nat) : Str :=
  "tier_y".data ++ natStr y ++ "_".data ++ c ++ "_t".data ++ natStr t

/-- Declaration of a flow variable: integer, bounds `[0, shipment_target[year][dest]]`. -/
def shipDecl (inp : CarrierInput) (y : Nat) (c : Str) (t : Nat) (d : Str) : VarDecl CVar :=
  ⟨.ship y c t d, shipName y c t d, some 0, some (targetAt inp y d), .Integer⟩

/-- Declaration of a tier-selection variable: binary, no explicit bounds. -/
def tierFlagDecl (y : Nat) (c : Str) (t : Nat) : VarDecl CVar :=
  ⟨.tierFlag y c t, tierFlagName y c t, none, none, .Binary⟩

/-- All declared variables, in source construction order: the
`shipment_at_tier` nest (year, carrier, tier, destination) then the
`tier_flag` nest (year, carrier, tier). -/
def carrierVars (inp : CarrierInput) : List (VarDecl CVar) :=
  ((List.range inp.num_years).flatMap fun y =>
    inp.carriers.flatMap fun c =>
      (List.range (numTiers inp)).flatMap fun t =>
        inp.destinations.map fun d => shipDecl inp y c t d)
  ++ ((List.range inp.num_years).flatMap fun y =>
    inp.carriers.flatMap fun c =>
      (List.range (numTiers inp)).map fun t => tierFlagDecl y c t)

/-- The objective `total_cost`: flow × `shipment_cost[carrier][dest]`
× `discount_rate[carrier][tier]` over (year, carrier, tier, dest). -/
def carrierObjective (inp : CarrierInput) : LinExp CVar :=
  lpSum ((List.range inp.num_years).flatMap fun y =>
    inp.carriers.flatMap fun c =>
      (List.range (numTiers inp)).flatMap fun t =>
        inp.destinations.map fun d =>
          termE (inp.shipment_cost c d * discountAt inp c t) (.ship y c t d))

/-- `lpSum(tier_flag[year][carrier]) == 1`. -/
def exactlyOneC (inp : CarrierInput) (y : Nat) (c : Str) : Constr CVar :=
  ⟨lpSum ((List.range (numTiers inp)).map fun t => var1 (.tierFlag y c t)), .eq, constE 1⟩

/-- `shipment_at_tier[y][c][t][d] <= shipment_target[y][d] * tier_flag[y][c][t]`. -/
def gateC (inp : CarrierInput) (y : Nat) (c : Str) (t : Nat) (d : Str) : Constr CVar :=
  ⟨var1 (.ship y c t d), .le, termE (targetAt inp y d) (.tierFlag y c t)⟩

/-- `tier_total >= tier_min_quantity[t] * tier_flag[y][c][t]`. -/
def tierMinC (inp : CarrierInput) (y : Nat) (c : Str) (t : Nat) : Constr CVar :=
  ⟨lpSum (inp.destinations.map fun d => var1 (.ship y c t d)), .ge,
    termE (tierMinAt inp t) (.tierFlag y c t)⟩

/-- `destination_total == shipment_target[year][dest]`. -/
def destEqC (inp : CarrierInput) (y : Nat) (d : Str) : Constr CVar :=
  ⟨lpSum (inp.carriers.flatMap fun c =>
      (List.range (numTiers inp)).map fun t => var1 (.ship y c t d)), .eq,
    constE (targetAt inp y d)⟩

/-- All constraints, in the source's emission order: per (year, carrier) the
exactly-one constraint followed, per tier, by the gating constraints (one per
destination) and the tier-minimum constraint; then per (year, destination)
the target-equality constraint. -/
def carrierConstraints (inp : CarrierInput) : List (Constr CVar) :=
  ((List.range inp.num_years).flatMap fun y =>
    inp.carriers.flatMap fun c =>
      exactlyOneC inp y c ::
        ((List.range (numTiers inp)).flatMap fun t =>
          (inp.destinations.map fun d => gateC inp y c t d) ++ [tierMinC inp y c t]))
  ++ ((List.range inp.num_years).flatMap fun y =>
    inp.destinations.map fun d => destEqC inp y d)

/-- The model built by `optimize_shipments` (when construction succeeds). -/
def carrierModel (inp : CarrierInput) : Model CVar :=
  ⟨carrierVars inp, carrierObjective inp, carrierConstraints inp⟩

/-- The only failure the Python builder can produce: an `IndexError` from a
positional list access (`shipment_target[year]` during variable creation, or
`discount_rate[carrier][tier]` during objective construction).  The source
contains no validation code and no `ConfigurationError`. -/
inductive BuildError : Type
  | indexError
deriving DecidableEq

/-- `optimize_shipments` of `src/carrier_earned_discount.py`.  The two guards
are exactly the in-range conditions of the positional list accesses the
Python function performs, checked in the order the function would hit them
(variable creation touches `shipment_target[year]` for `year <` `num_years`;
the objective touches `discount_rate[carrier][tier]` for every carrier and
every `tier < len(tier_min_quantity)`).  When both hold, every `getD` in
`carrierModel` equals the corresponding Python access and the finished model
is returned; otherwise the Python function dies with `IndexError`. -/
def optimize_shipments (inp : CarrierInput) : Except BuildError (Model CVar) :=
  if inp.num_years ≤ inp.shipment_target.length then
    if ∀ c ∈ inp.carriers, numTiers inp ≤ (inp.discount_rate c).length then
      .ok (carrierModel inp)
    else .error .indexError
  else .error .indexError

/-! ### Solution printing of `carrier_earned_discount.py` (`print_solution`) -/

/-- The per-destination `Cost` figure printed by `print_solution`: over the
tiers, whenever the solved flow is positive, it adds
`shipments * discount_rate[carrier][tier]` — the unit `shipment_cost` is not
a parameter of `print_solution` and is not multiplied in.  (The
`value(var) is not None` guard of the source is always passed here since an
assignment is total.) -/
def printedDestCost (inp : CarrierInput) (a : CVar → ℚ) (y : Nat) (c : Str) (d : Str) : ℚ :=
  ((List.range (numTiers inp)).map fun t =>
    if 0 < a (.ship y c t d) then a (.ship y c t d) * discountAt inp c t else 0).sum

/-- `carrier_cost`, accumulated over destinations. -/
def printedCarrierCost (inp : CarrierInput) (a : CVar → ℚ) (y : Nat) (c : Str) : ℚ :=
  (inp.destinations.map fun d => printedDestCost inp a y c d).sum

/-- `year_total_cost`, accumulated over carriers. -/
def printedYearTotal (inp : CarrierInput) (a : CVar → ℚ) (y : Nat) : ℚ :=
  (inp.carriers.map fun c => printedCarrierCost inp a y c).sum

/-- The non-optimal-status diagnosis branches of the tiered variant's
`print_solution`.  Only the infeasible branch prints the diagnostic counts
(total demand, numbers of carriers/destinations/years, tier minimums); the
unbounded / not-solved / undefined branches print fixed messages without
counts, and the fallback prints the unknown status code. -/
inductive CarrierDiag : Type
  | optimal
  | infeasible (totalDemand : ℚ) (nCarriers nDests nYears : Nat) (tierMins : List ℚ)
  | unbounded
  | notSolved
  | undefinedStatus
  | unknown (code : Int)
deriving DecidableEq

/-- `sum(sum(shipment_target[y].values()) for y in range(num_years))`
(the dict's values are its per-destination entries). -/
def totalDemand (inp : CarrierInput) : ℚ :=
  ((List.range inp.num_years).map fun y =>
    (inp.destinations.map fun d => targetAt inp y d).sum).sum

/-- Branch selection of the tiered `print_solution` on the solver status
code, mirroring the `if/elif` chain of the source (PuLP status codes:
Optimal = 1, Infeasible = -1, Unbounded = -2, NotSolved = 0,
Undefined = -3). -/
def carrierDiagnose (inp : CarrierInput) (status : Int) : CarrierDiag :=
  if status = 1 then .optimal
  else if status = -1 then
    .infeasible (totalDemand inp) inp.carriers.length inp.destinations.length
      inp.num_years inp.tier_min_quantity
  else if status = -2 then .unbounded
  else if status = 0 then .notSolved
  else if status = -3 then .undefinedStatus
  else .unknown status

/-! ### The duplicate builder in `src/problems/carrier_earned_discount/main.py`

The `optimize_shipments` function of that file is transcribed below exactly
as it appears there (lines 15–112 of the file); only `get_user_input`
differs between the two Python files. -/

namespace ProblemsCarrierEarnedDiscount

def shipName (y : Nat) (c : Str) (t : Nat) (d : Str) : Str :=
  "ship_y".data ++ natStr y ++ "_".data ++ c ++ "_t".data ++ natStr t ++ "_".data ++ d

def tierFlagName (y : Nat) (c : Str) (t : Nat) : Str :=
  "tier_y".data ++ natStr y ++ "_".data ++ c ++ "_t".data ++ natStr t

def shipDecl (inp : CarrierInput) (y : Nat) (c : Str) (t : Nat) (d : Str) : VarDecl CVar :=
  ⟨.ship y c t d, shipName y c t d, some 0, some (targetAt inp y d), .Integer⟩

def tierFlagDecl (y : Nat) (c : Str) (t : Nat) : VarDecl CVar :=
  ⟨.tierFlag y c t, tierFlagName y c t, none, none, .Binary⟩

def carrierVars (inp : CarrierInput) : List (VarDecl CVar) :=
  ((List.range inp.num_years).flatMap fun y =>
    inp.carriers.flatMap fun c =>
      (List.range (numTiers inp)).flatMap fun t =>
        inp.destinations.map fun d => shipDecl inp y c t d)
  ++ ((List.range inp.num_years).flatMap fun y =>
    inp.carriers.flatMap fun c =>
      (List.range (numTiers inp)).map fun t => tierFlagDecl y c t)

def carrierObjective (inp : CarrierInput) : LinExp CVar :=
  lpSum ((List.range inp.num_years).flatMap fun y =>
    inp.carriers.flatMap fun c =>
      (List.range (numTiers inp)).flatMap fun t =>
        inp.destinations.map fun d =>
          termE (inp.shipment_cost c d * discountAt inp c t) (.ship y c t d))

def exactlyOneC (inp : CarrierInput) (y : Nat) (c : Str) : Constr CVar :=
  ⟨lpSum ((List.range (numTiers inp)).map fun t => var1 (.tierFlag y c t)), .eq, constE 1⟩

def gateC (inp : CarrierInput) (y : Nat) (c : Str) (t : Nat) (d : Str) : Constr CVar :=
  ⟨var1 (.ship y c t d), .le, termE (targetAt inp y d) (.tierFlag y c t)⟩

def tierMinC (inp : CarrierInput) (y : Nat) (c : Str) (t : Nat) : Constr CVar :=
  ⟨lpSum (inp.destinations.map fun d => var1 (.ship y c t d)), .ge,
    termE (tierMinAt inp t) (.tierFlag y c t)⟩

def destEqC (inp : CarrierInput) (y : Nat) (d : Str) : Constr CVar :=
  ⟨lpSum (inp.carriers.flatMap fun c =>
      (List.range (numTiers inp)).map fun t => var1 (.ship y c t d)), .eq,
    constE (targetAt inp y d)⟩

def carrierConstraints (inp : CarrierInput) : List (Constr CVar) :=
  ((List.range inp.num_years).flatMap fun y =>
    inp.carriers.flatMap fun c =>
      exactlyOneC inp y c ::
        ((List.range (numTiers inp)).flatMap fun t =>
          (inp.destinations.map fun d => gateC inp y c t d) ++ [tierMinC inp y c t]))
  ++ ((List.range inp.num_years).flatMap fun y =>
    inp.destinations.map fun d => destEqC inp y d)

def carrierModel (inp : CarrierInput) : Model CVar :=
  ⟨carrierVars inp, carrierObjective inp, carrierConstraints inp⟩

def optimize_shipments (inp : CarrierInput) : Except BuildError (Model CVar) :=
  if inp.num_years ≤ inp.shipment_target.length then
    if ∀ c ∈ inp.carriers, numTiers inp ≤ (inp.discount_rate c).length then
      .ok (carrierModel inp)
    else .error .indexError
  else .error .indexError

end ProblemsCarrierEarnedDiscount

/-! ### Network-allocation formulation, from `src/warehouse_shipments.py` -/

/-- Variable identities of the warehouse model. -/
inductive WVar : Type
  | shipmentCount (i j : Str)
  | warehouseUsage (i : Str)
deriving DecidableEq

/-- Parameters of `optimize_shipments` in `warehouse_shipments.py`. -/
structure WInput : Type where
  warehouses : List Str
  destinations : List Str
  target_distribution : Str → ℚ
  shipment_capacity : Str → Str → ℚ
  warehouse_cost : Str → ℚ
  shipment_cost : Str → Str → ℚ
  target_delivery_days : ℤ
  delivery_tolerance : ℚ
  delivery_estimate : Str → Str → ℤ

/-- `f"shipment_count_{i}_{j}"`. -/
def shipCountName (i j : Str) : Str :=
  "shipment_count_".data ++ i ++ "_".data ++ j

/-- `"warehouse_usage_" + i`, the name scheme of `LpVariable.dicts`. -/
def usageName (i : Str) : Str := "warehouse_usage_".data ++ i

/-- `shipment_count[(i, j)]`: integer, bounds `[0, shipment_capacity[i][j]]`. -/
def shipCountDecl (inp : WInput) (i j : Str) : VarDecl WVar :=
  ⟨.shipmentCount i j, shipCountName i j, some 0, some (inp.shipment_capacity i j), .Integer⟩

/-- `warehouse_usage[i]`: binary. -/
def usageDecl (i : Str) : VarDecl WVar :=
  ⟨.warehouseUsage i, usageName i, none, none, .Binary⟩

/-- All declared variables: the `shipment_count` comprehension (warehouse
then destination) followed by the `warehouse_usage` dict. -/
def wVars (inp : WInput) : List (VarDecl WVar) :=
  (inp.warehouses.flatMap fun i => inp.destinations.map fun j => shipCountDecl inp i j)
  ++ inp.warehouses.map usageDecl

/-- `delivery_target_failure[(i, j)] = 1 if delivery_estimate[i][j] >
target_delivery_days else 0` — a CALCULATED PARAMETER of the source,
computed from the inputs before solving, not a decision variable. -/
def deliveryTargetFailure (inp : WInput) (i j : Str) : ℚ :=
  if inp.delivery_estimate i j > inp.target_delivery_days then 1 else 0

/-- The objective `total_cost`: variable shipment cost plus fixed
warehouse-activation cost. -/
def wObjective (inp : WInput) : LinExp WVar :=
  addExp
    (lpSum (inp.warehouses.flatMap fun i => inp.destinations.map fun j =>
      termE (inp.shipment_cost i j) (.shipmentCount i j)))
    (lpSum (inp.warehouses.map fun i => termE (inp.warehouse_cost i) (.warehouseUsage i)))

/-- `shipment_count[(i, j)] <= shipment_capacity[i][j] * warehouse_usage[i]`. -/
def usageGateC (inp : WInput) (i j : Str) : Constr WVar :=
  ⟨var1 (.shipmentCount i j), .le, termE (inp.shipment_capacity i j) (.warehouseUsage i)⟩

/-- `lpSum([shipment_count[(i, j)] for i in warehouses]) == target_distribution[j]`. -/
def distEqC (inp : WInput) (j : Str) : Constr WVar :=
  ⟨lpSum (inp.warehouses.map fun i => var1 (.shipmentCount i j)), .eq,
    constE (inp.target_distribution j)⟩

/-- `failed_shipments <= delivery_tolerance * total_to_dest`. -/
def deliveryC (inp : WInput) (j : Str) : Constr WVar :=
  ⟨lpSum (inp.warehouses.map fun i =>
      termE (deliveryTargetFailure inp i j) (.shipmentCount i j)), .le,
    scaleExp inp.delivery_tolerance
      (lpSum (inp.warehouses.map fun i => var1 (.shipmentCount i j)))⟩

/-- All constraints in emission order: usage gates, distribution equalities,
delivery-tolerance constraints. -/
def wConstraints (inp : WInput) : List (Constr WVar) :=
  (inp.warehouses.flatMap fun i => inp.destinations.map fun j => usageGateC inp i j)
  ++ inp.destinations.map (distEqC inp)
  ++ inp.destinations.map (deliveryC inp)

namespace WarehouseShipments

/-- `optimize_shipments` of `src/warehouse_shipments.py`; all parameter
accesses are dict lookups, so construction is total. -/
def optimize_shipments (inp : WInput) : Model WVar :=
  ⟨wVars inp, wObjective inp, wConstraints inp⟩

end WarehouseShipments

/-- PuLP's `LpStatus` code-to-name dict; `none` for a code outside it
(a Python `KeyError`). -/
def lpStatusName (s : Int) : Option String :=
  if s = 0 then some "Not Solved"
  else if s = 1 then some "Optimal"
  else if s = -1 then some "Infeasible"
  else if s = -2 then some "Unbounded"
  else if s = -3 then some "Undefined"
  else none

/-- The entire non-optimal output of the network variant's `print_solution`:
for any status other than optimal it prints the status name and one generic
line, then returns — there is no per-category branch and no diagnostic
counts (the function consults nothing but `problem.status` before
returning). -/
def wNonOptimalLines (s : Int) : Option (List String) :=
  if s = 1 then none
  else (lpStatusName s).map fun n =>
    ["Solution Status: " ++ n, "No optimal solution found."]

/-! ### Membership lemmas for the carrier model -/

theorem mem_carrierVars_ship (inp : CarrierInput) {y : Nat} {c : Str} {t : Nat} {d : Str}
    (hy : y < inp.num_years) (hc : c ∈ inp.carriers) (ht : t < numTiers inp)
    (hd : d ∈ inp.destinations) : shipDecl inp y c t d ∈ carrierVars inp := by
  unfold carrierVars
  refine List.mem_append_left _ ?_
  refine List.mem_flatMap.mpr ⟨y, List.mem_range.mpr hy, ?_⟩
  refine List.mem_flatMap.mpr ⟨c, hc, ?_⟩
  refine List.mem_flatMap.mpr ⟨t, List.mem_range.mpr ht, ?_⟩
  exact List.mem_map_of_mem _ hd

theorem mem_carrierVars_tierFlag (inp : CarrierInput) {y : Nat} {c : Str} {t : Nat}
    (hy : y < inp.num_years) (hc : c ∈ inp.carriers) (ht : t < numTiers inp) :
    tierFlagDecl y c t ∈ carrierVars inp := by
  unfold carrierVars
  refine List.mem_append_right _ ?_
  refine List.mem_flatMap.mpr ⟨y, List.mem_range.mpr hy, ?_⟩
  refine List.mem_flatMap.mpr ⟨c, hc, ?_⟩
  exact List.mem_map.mpr ⟨t, List.mem_range.mpr ht, rfl⟩

theorem mem_carrierConstraints_exactlyOne (inp : CarrierInput) {y : Nat} {c : Str}
    (hy : y < inp.num_years) (hc : c ∈ inp.carriers) :
    exactlyOneC inp y c ∈ carrierConstraints inp := by
  unfold carrierConstraints
  refine List.mem_append_left _ ?_
  refine List.mem_flatMap.mpr ⟨y, List.mem_range.mpr hy, ?_⟩
  refine List.mem_flatMap.mpr ⟨c, hc, ?_⟩
  exact List.mem_cons_self _ _

theorem mem_carrierConstraints_gate (inp : CarrierInput) {y : Nat} {c : Str} {t : Nat} {d : Str}
    (hy : y < inp.num_years) (hc : c ∈ inp.carriers) (ht : t < numTiers inp)
    (hd : d ∈ inp.destinations) : gateC inp y c t d ∈ carrierConstraints inp := by
  unfold carrierConstraints
  refine List.mem_append_left _ ?_
  refine List.mem_flatMap.mpr ⟨y, List.mem_range.mpr hy, ?_⟩
  refine List.mem_flatMap.mpr ⟨c, hc, ?_⟩
  refine List.mem_cons_of_mem _ ?_
  refine List.mem_flatMap.mpr ⟨t, List.mem_range.mpr ht, ?_⟩
  exact List.mem_append_left _ (List.mem_map_of_mem _ hd)

theorem mem_carrierConstraints_tierMin (inp : CarrierInput) {y : Nat} {c : Str} {t : Nat}
    (hy : y < inp.num_years) (hc : c ∈ inp.carriers) (ht : t < numTiers inp) :
    tierMinC inp y c t ∈ carrierConstraints inp := by
  unfold carrierConstraints
  refine List.mem_append_left _ ?_
  refine List.mem_flatMap.mpr ⟨y, List.mem_range.mpr hy, ?_⟩
  refine List.mem_flatMap.mpr ⟨c, hc, ?_⟩
  refine List.mem_cons_of_mem _ ?_
  refine List.mem_flatMap.mpr ⟨t, List.mem_range.mpr ht, ?_⟩
  exact List.mem_append_right _ (List.mem_singleton.mpr rfl)

theorem mem_carrierConstraints_destEq (inp : CarrierInput) {y : Nat} {d : Str}
    (hy : y < inp.num_years) (hd : d ∈ inp.destinations) :
    destEqC inp y d ∈ carrierConstraints inp := by
  unfold carrierConstraints
  refine List.mem_append_right _ ?_
  refine List.mem_flatMap.mpr ⟨y, List.mem_range.mpr hy, ?_⟩
  exact List.mem_map_of_mem _ hd

/-! ### Semantic consequences of carrier-model feasibility -/

theorem feasible_ship_bounds {inp : CarrierInput} {a : CVar → ℚ}
    (h : (carrierModel inp).Feasible a) {y : Nat} {c : Str} {t : Nat} {d : Str}
    (hy : y < inp.num_years) (hc : c ∈ inp.carriers) (ht : t < numTiers inp)
    (hd : d ∈ inp.destinations) :
    0 ≤ a (.ship y c t d) ∧ a (.ship y c t d) ≤ targetAt inp y d := by
  have hh := h.1 _ (mem_carrierVars_ship inp hy hc ht hd)
  exact ⟨hh.1, hh.2.1⟩

theorem feasible_flag_binary {inp : CarrierInput} {a : CVar → ℚ}
    (h : (carrierModel inp).Feasible a) {y : Nat} {c : Str} {t : Nat}
    (hy : y < inp.num_years) (hc : c ∈ inp.carriers) (ht : t < numTiers inp) :
    a (.tierFlag y c t) = 0 ∨ a (.tierFlag y c t) = 1 :=
  (h.1 _ (mem_carrierVars_tierFlag inp hy hc ht)).2.2

theorem feasible_destEq_sum {inp : CarrierInput} {a : CVar → ℚ}
    (h : (carrierModel inp).Feasible a) {y : Nat} {d : Str}
    (hy : y < inp.num_years) (hd : d ∈ inp.destinations) :
    (inp.carriers.map fun c =>
      ((List.range (numTiers inp)).map fun t => a (.ship y c t d)).sum).sum
      = targetAt inp y d := by
  have hs : (lpSum (inp.carriers.flatMap fun c =>
      (List.range (numTiers inp)).map fun t => var1 (CVar.ship y c t d))).eval a
      = (constE (targetAt inp y d)).eval a :=
    h.2 _ (mem_carrierConstraints_destEq inp hy hd)
  rw [eval_lpSum, eval_constE, sum_flatMap] at hs
  simpa only [List.map_map, Function.comp_def, eval_var1] using hs

theorem feasible_exactlyOne_sum {inp : CarrierInput} {a : CVar → ℚ}
    (h : (carrierModel inp).Feasible a) {y : Nat} {c : Str}
    (hy : y < inp.num_years) (hc : c ∈ inp.carriers) :
    ((List.range (numTiers inp)).map fun t => a (.tierFlag y c t)).sum = 1 := by
  have hs : (lpSum ((List.range (numTiers inp)).map fun t =>
      var1 (CVar.tierFlag y c t))).eval a = (constE 1).eval a :=
    h.2 _ (mem_carrierConstraints_exactlyOne inp hy hc)
  rw [eval_lpSum, eval_constE] at hs
  simpa only [List.map_map, Function.comp_def, eval_var1] using hs

theorem feasible_gate {inp : CarrierInput} {a : CVar → ℚ}
    (h : (carrierModel inp).Feasible a) {y : Nat} {c : Str} {t : Nat} {d : Str}
    (hy : y < inp.num_years) (hc : c ∈ inp.carriers) (ht : t < numTiers inp)
    (hd : d ∈ inp.destinations) :
    a (.ship y c t d) ≤ targetAt inp y d * a (.tierFlag y c t) := by
  have hs : (var1 (CVar.ship y c t d)).eval a
      ≤ (termE (targetAt inp y d) (CVar.tierFlag y c t)).eval a :=
    h.2 _ (mem_carrierConstraints_gate inp hy hc ht hd)
  rwa [eval_var1, eval_termE] at hs

theorem feasible_tierMin {inp : CarrierInput} {a : CVar → ℚ}
    (h : (carrierModel inp).Feasible a) {y : Nat} {c : Str} {t : Nat}
    (hy : y < inp.num_years) (hc : c ∈ inp.carriers) (ht : t < numTiers inp) :
    tierMinAt inp t * a (.tierFlag y c t)
      ≤ (inp.destinations.map fun d => a (.ship y c t d)).sum := by
  have hs : (termE (tierMinAt inp t) (CVar.tierFlag y c t)).eval a
      ≤ (lpSum (inp.destinations.map fun d => var1 (CVar.ship y c t d))).eval a :=
    h.2 _ (mem_carrierConstraints_tierMin inp hy hc ht)
  rw [eval_lpSum, eval_termE] at hs
  simpa only [List.map_map, Function.comp_def, eval_var1] using hs

/-! ### Sum helper lemmas -/

theorem all_zero_of_sum_zero (l : List ℚ) (h0 : ∀ x ∈ l, 0 ≤ x) (hs : l.sum = 0) :
    ∀ x ∈ l, x = 0 := by
  induction l with
  | nil => simp
  | cons x xs ih =>
    have hx : 0 ≤ x := h0 x (List.mem_cons_self _ _)
    have hxs : 0 ≤ xs.sum := List.sum_nonneg fun y hy => h0 y (List.mem_cons_of_mem _ hy)
    rw [List.sum_cons] at hs
    have hx0 : x = 0 := by linarith
    have hs0 : xs.sum = 0 := by linarith
    intro y hy
    rcases List.mem_cons.mp hy with rfl | hy'
    · exact hx0
    · exact ih (fun z hz => h0 z (List.mem_cons_of_mem _ hz)) hs0 y hy'

theorem exists_unique_one_of_sum_one (n : Nat) (f : Nat → ℚ)
    (hb : ∀ t < n, f t = 0 ∨ f t = 1)
    (hs : ((List.range n).map f).sum = 1) :
    ∃ t₀, t₀ < n ∧ f t₀ = 1 ∧ ∀ t < n, t ≠ t₀ → f t = 0 := by
  induction n with
  | zero => simp at hs
  | succ n ih =>
    rw [List.range_succ, List.map_append, List.sum_append] at hs
    simp only [List.map_cons, List.map_nil, List.sum_cons, List.sum_nil, add_zero] at hs
    rcases hb n (Nat.lt_succ_self n) with h0 | h1
    · have hs' : ((List.range n).map f).sum = 1 := by rw [h0] at hs; linarith
      obtain ⟨t₀, ht₀, hone, hzero⟩ :=
        ih (fun t ht => hb t (ht.trans (Nat.lt_succ_self n))) hs'
      refine ⟨t₀, ht₀.trans (Nat.lt_succ_self n), hone, ?_⟩
      intro t ht hne
      rcases Nat.lt_succ_iff_lt_or_eq.mp ht with ht' | rfl
      · exact hzero t ht' hne
      · exact h0
    · have hS : ((List.range n).map f).sum = 0 := by rw [h1] at hs; linarith
      have hall : ∀ u < n, f u = 0 := by
        intro u hu
        refine all_zero_of_sum_zero _ ?_ hS _
          (List.mem_map_of_mem f (List.mem_range.mpr hu))
        intro x hx
        obtain ⟨u, hu, rfl⟩ := List.mem_map.mp hx
        rcases hb u ((List.mem_range.mp hu).trans (Nat.lt_succ_self n)) with h | h <;>
          simp [h]
      refine ⟨n, Nat.lt_succ_self n, h1, ?_⟩
      intro t ht hne
      exact hall t (Nat.lt_of_le_of_ne (Nat.lt_succ_iff.mp ht) hne)

/-! ### Tier exclusivity and gating, derived -/

theorem carrier_tier_exclusive {inp : CarrierInput} {a : CVar → ℚ}
    (h : (carrierModel inp).Feasible a) {y : Nat} {c : Str}
    (hy : y < inp.num_years) (hc : c ∈ inp.carriers) :
    ∃ t₀, t₀ < numTiers inp ∧ a (.tierFlag y c t₀) = 1 ∧
      ∀ t < numTiers inp, t ≠ t₀ → a (.tierFlag y c t) = 0 :=
  exists_unique_one_of_sum_one (numTiers inp) (fun t => a (.tierFlag y c t))
    (fun _ ht => feasible_flag_binary h hy hc ht)
    (feasible_exactlyOne_sum h hy hc)

theorem carrier_inactive_flow_zero {inp : CarrierInput} {a : CVar → ℚ}
    (h : (carrierModel inp).Feasible a) {y : Nat} {c : Str} {t : Nat} {d : Str}
    (hy : y < inp.num_years) (hc : c ∈ inp.carriers) (ht : t < numTiers inp)
    (hd : d ∈ inp.destinations) (hflag : a (.tierFlag y c t) = 0) :
    a (.ship y c t d) = 0 := by
  have hg := feasible_gate h hy hc ht hd
  rw [hflag, mul_zero] at hg
  exact le_antisymm hg (feasible_ship_bounds h hy hc ht hd).1

/-! ### Membership and feasibility lemmas for the warehouse model -/

theorem mem_wVars_shipCount (inp : WInput) {i j : Str}
    (hi : i ∈ inp.warehouses) (hj : j ∈ inp.destinations) :
    shipCountDecl inp i j ∈ wVars inp := by
  unfold wVars
  refine List.mem_append_left _ ?_
  refine List.mem_flatMap.mpr ⟨i, hi, ?_⟩
  exact List.mem_map_of_mem _ hj

theorem mem_wVars_usage (inp : WInput) {i : Str} (hi : i ∈ inp.warehouses) :
    usageDecl i ∈ wVars inp := by
  unfold wVars
  exact List.mem_append_right _ (List.mem_map_of_mem _ hi)

theorem mem_wConstraints_usageGate (inp : WInput) {i j : Str}
    (hi : i ∈ inp.warehouses) (hj : j ∈ inp.destinations) :
    usageGateC inp i j ∈ wConstraints inp := by
  unfold wConstraints
  refine List.mem_append_left _ (List.mem_append_left _ ?_)
  refine List.mem_flatMap.mpr ⟨i, hi, ?_⟩
  exact List.mem_map_of_mem _ hj

theorem mem_wConstraints_distEq (inp : WInput) {j : Str} (hj : j ∈ inp.destinations) :
    distEqC inp j ∈ wConstraints inp := by
  unfold wConstraints
  exact List.mem_append_left _ (List.mem_append_right _ (List.mem_map_of_mem _ hj))

theorem mem_wConstraints_delivery (inp : WInput) {j : Str} (hj : j ∈ inp.destinations) :
    deliveryC inp j ∈ wConstraints inp := by
  unfold wConstraints
  exact List.mem_append_right _ (List.mem_map_of_mem _ hj)

theorem wFeasible_shipCount_bounds {inp : WInput} {a : WVar → ℚ}
    (h : (WarehouseShipments.optimize_shipments inp).Feasible a) {i j : Str}
    (hi : i ∈ inp.warehouses) (hj : j ∈ inp.destinations) :
    0 ≤ a (.shipmentCount i j) ∧ a (.shipmentCount i j) ≤ inp.shipment_capacity i j := by
  have hh := h.1 _ (mem_wVars_shipCount inp hi hj)
  exact ⟨hh.1, hh.2.1⟩

theorem wFeasible_usage_binary {inp : WInput} {a : WVar → ℚ}
    (h : (WarehouseShipments.optimize_shipments inp).Feasible a) {i : Str}
    (hi : i ∈ inp.warehouses) :
    a (.warehouseUsage i) = 0 ∨ a (.warehouseUsage i) = 1 :=
  (h.1 _ (mem_wVars_usage inp hi)).2.2

theorem wFeasible_usageGate {inp : WInput} {a : WVar → ℚ}
    (h : (WarehouseShipments.optimize_shipments inp).Feasible a) {i j : Str}
    (hi : i ∈ inp.warehouses) (hj : j ∈ inp.destinations) :
    a (.shipmentCount i j) ≤ inp.shipment_capacity i j * a (.warehouseUsage i) := by
  have hs : (var1 (WVar.shipmentCount i j)).eval a
      ≤ (termE (inp.shipment_capacity i j) (WVar.warehouseUsage i)).eval a :=
    h.2 _ (mem_wConstraints_usageGate inp hi hj)
  rwa [eval_var1, eval_termE] at hs

theorem wFeasible_distEq_sum {inp : WInput} {a : WVar → ℚ}
    (h : (WarehouseShipments.optimize_shipments inp).Feasible a) {j : Str}
    (hj : j ∈ inp.destinations) :
    (inp.warehouses.map fun i => a (.shipmentCount i j)).sum
      = inp.target_distribution j := by
  have hs : (lpSum (inp.warehouses.map fun i =>
      var1 (WVar.shipmentCount i j))).eval a
      = (constE (inp.target_distribution j)).eval a :=
    h.2 _ (mem_wConstraints_distEq inp hj)
  rw [eval_lpSum, eval_constE] at hs
  simpa only [List.map_map, Function.comp_def, eval_var1] using hs

theorem wFeasible_delivery {inp : WInput} {a : WVar → ℚ}
    (h : (WarehouseShipments.optimize_shipments inp).Feasible a) {j : Str}
    (hj : j ∈ inp.destinations) :
    (inp.warehouses.map fun i =>
      deliveryTargetFailure inp i j * a (.shipmentCount i j)).sum
      ≤ inp.delivery_tolerance *
        (inp.warehouses.map fun i => a (.shipmentCount i j)).sum := by
  have hs : (lpSum (inp.warehouses.map fun i =>
      termE (deliveryTargetFailure inp i j) (WVar.shipmentCount i j))).eval a
      ≤ (scaleExp inp.delivery_tolerance
        (lpSum (inp.warehouses.map fun i => var1 (WVar.shipmentCount i j)))).eval a :=
    h.2 _ (mem_wConstraints_delivery inp hj)
  rw [eval_lpSum, eval_scaleExp, eval_lpSum] at hs
  simpa only [List.map_map, Function.comp_def, eval_var1, eval_termE] using hs

/-! ### Python string operations used by the network `print_solution`

`v.name.replace("shipment_count_", "")` replaces every (left-to-right,
non-overlapping) occurrence of the pattern; `.split("_")` splits on the
one-character separator `"_"`, keeping empty fields.  `pyReplaceF` carries a
fuel argument (1 unit per consumed character suffices) so that it is
structurally recursive and evaluates in the kernel. -/

def pyReplaceF (pat rep : Str) : Nat → Str → Str
  | _, [] => []
  | 0, s => s
  | fuel + 1, c :: rest =>
    if pat ≠ [] ∧ pat <+: (c :: rest) then
      rep ++ pyReplaceF pat rep fuel ((c :: rest).drop pat.length)
    else
      c :: pyReplaceF pat rep fuel rest

/-- Python `s.replace(pat, rep)` (for nonempty `pat`, the only use here). -/
def pyReplace (pat rep s : Str) : Str := pyReplaceF pat rep s.length s

/-- Python `s.split(sep)` for a one-character separator `sep`. -/
def pySplitChar (sep : Char) : Str → List Str
  | [] => [[]]
  | c :: rest =>
    if c = sep then [] :: pySplitChar sep rest
    else
      match pySplitChar sep rest with
      | [] => [[c]]
      | p :: ps => (c :: p) :: ps

/-- The key recovery of the network `print_solution`:
`parts = v.name.replace("shipment_count_", "").split("_")` and then
`i, j = parts[0], parts[1]`; `none` models the `IndexError` Python raises
when fewer than two fields result. -/
def parseShipmentKey (name : Str) : Option (Str × Str) :=
  match pySplitChar '_' (pyReplace ("shipment_count_".data) [] name) with
  | i :: j :: _ => some (i, j)
  | _ => none

/-- Python `int()` applied to a float/rational: truncation toward zero. -/
def pytrunc (q : ℚ) : ℤ := if 0 ≤ q then ⌊q⌋ else ⌈q⌉

/-- The two dicts `shipment_counts` and `warehouse_usage` being rebuilt by
the extraction loop. -/
structure ExtractState : Type where
  shipment_counts : (Str × Str) → Option ℤ
  warehouse_usage : Str → Option ℤ

/-- Python dict assignment `d[k] = z` on a dict embedded as a function. -/
def dictPut {κ : Type} [DecidableEq κ] (f : κ → Option ℤ) (k : κ) (z : ℤ) :
    κ → Option ℤ :=
  fun k' => if k' = k then some z else f k'

/-- One iteration of `for v in problem.variables()`: the
`startswith("shipment_count_")` branch parses the key and stores
`int(v.varValue)`; the `startswith("warehouse_usage_")` branch strips that
pattern; any other variable is ignored.  `none` is the `IndexError` of a
failed `parts[1]` access. -/
def extractStep (a : WVar → ℚ) (st : ExtractState) (v : VarDecl WVar) :
    Option ExtractState :=
  if ("shipment_count_".data) <+: v.name then
    match parseShipmentKey v.name with
    | some (i, j) =>
        some ⟨dictPut st.shipment_counts (i, j) (pytrunc (a v.idx)), st.warehouse_usage⟩
    | none => none
  else if ("warehouse_usage_".data) <+: v.name then
    some ⟨st.shipment_counts,
      dictPut st.warehouse_usage (pyReplace ("warehouse_usage_".data) [] v.name)
        (pytrunc (a v.idx))⟩
  else some st

/-- The full extraction loop of the network `print_solution` over the
model's variables with their solved values `a`. -/
def extractSolution (m : Model WVar) (a : WVar → ℚ) : Option ExtractState :=
  m.vars.foldlM (extractStep a) ⟨fun _ => none, fun _ => none⟩

/-! ### Lemmas about the Python string operations -/

theorem pyReplaceF_eq_self (pat rep : Str) :
    ∀ (fuel : Nat) (s : Str),
      (∀ t : Str, t <:+ s → t ≠ [] → ¬ pat <+: t) → pyReplaceF pat rep fuel s = s
  | 0, [], _ => rfl
  | 0, _ :: _, _ => rfl
  | _ + 1, [], _ => rfl
  | fuel + 1, c :: rest, h => by
    have hcond : ¬ (pat ≠ [] ∧ pat <+: (c :: rest)) := by
      rintro ⟨-, hp⟩
      exact h (c :: rest) (List.suffix_refl _) (by simp) hp
    simp only [pyReplaceF, if_neg hcond]
    congr 1
    exact pyReplaceF_eq_self pat rep fuel rest
      (fun t ht hne => h t (ht.trans (List.suffix_cons c rest)) hne)

theorem pyReplaceF_cons_match (pat rep : Str) (fuel : Nat) (t : Str) (hne : pat ≠ []) :
    pyReplaceF pat rep (fuel + 1) (pat ++ t) = rep ++ pyReplaceF pat rep fuel t := by
  obtain ⟨p, ps, rfl⟩ := List.exists_cons_of_ne_nil hne
  rw [List.cons_append]
  simp only [pyReplaceF]
  rw [if_pos ⟨by simp, by rw [← List.cons_append]; exact ⟨t, rfl⟩⟩]
  congr 1
  rw [← List.cons_append, List.drop_left]

theorem pyReplace_strip (pat u : Str) (hne : pat ≠ [])
    (h : ∀ t : Str, t <:+ u → t ≠ [] → ¬ pat <+: t) :
    pyReplace pat [] (pat ++ u) = u := by
  unfold pyReplace
  obtain ⟨p, ps, rfl⟩ := List.exists_cons_of_ne_nil hne
  have hlen : ((p :: ps) ++ u).length = (ps.length + u.length) + 1 := by
    simp [List.length_append]
  rw [hlen, pyReplaceF_cons_match _ _ _ _ (by simp), List.nil_append]
  exact pyReplaceF_eq_self _ _ _ _ h

theorem no_occurrence_of_count_lt (pat u : Str) (a : Char)
    (hcount : u.count a < pat.count a) :
    ∀ t : Str, t <:+ u → t ≠ [] → ¬ pat <+: t := by
  intro t ht _ hp
  have h1 : pat.count a ≤ t.count a := hp.sublist.count_le a
  have h2 : t.count a ≤ u.count a := ht.sublist.count_le a
  omega

theorem pySplitChar_no_sep (sep : Char) (j : Str) (hj : sep ∉ j) :
    pySplitChar sep j = [j] := by
  induction j with
  | nil => rfl
  | cons c rest ih =>
    have hc : ¬ c = sep := fun hc => hj (hc ▸ List.mem_cons_self c rest)
    rw [pySplitChar, if_neg hc, ih (fun h => hj (List.mem_cons_of_mem c h))]

theorem pySplitChar_mid (i j : Str) (hi : '_' ∉ i) (hj : '_' ∉ j) :
    pySplitChar '_' (i ++ '_' :: j) = [i, j] := by
  induction i with
  | nil =>
    rw [List.nil_append, pySplitChar, if_pos rfl, pySplitChar_no_sep _ j hj]
  | cons c rest ih =>
    have hc : ¬ c = '_' := fun hc => hi (hc ▸ List.mem_cons_self c rest)
    rw [List.cons_append, pySplitChar, if_neg hc,
      ih (fun h => hi (List.mem_cons_of_mem c h))]

theorem underscore_count_pat : ("shipment_count_".data).count '_' = 2 := by decide

theorem parseShipmentKey_clean (i j : Str) (hi : '_' ∉ i) (hj : '_' ∉ j) :
    parseShipmentKey (shipCountName i j) = some (i, j) := by
  unfold parseShipmentKey shipCountName
  have hassoc : "shipment_count_".data ++ i ++ "_".data ++ j
      = "shipment_count_".data ++ (i ++ '_' :: j) := by simp
  rw [hassoc, pyReplace_strip _ _ (by decide) ?noocc, pySplitChar_mid i j hi hj]
  case noocc =>
    apply no_occurrence_of_count_lt _ _ '_'
    have h1 : (i ++ '_' :: j).count '_' = 1 := by
      rw [List.count_append, List.count_cons]
      rw [List.count_eq_zero.mpr hi, List.count_eq_zero.mpr hj]
      simp
    rw [h1, underscore_count_pat]
    omega

theorem shipment_starts_shipCountName (i j : Str) :
    ("shipment_count_".data) <+: shipCountName i j :=
  ⟨i ++ "_".data ++ j, by simp [shipCountName]⟩

theorem shipment_not_starts_usageName (i : Str) :
    ¬ ("shipment_count_".data) <+: usageName i := by
  rintro ⟨t, ht⟩
  rw [show ("shipment_count_".data) = 's' :: ("hipment_count_".data) from rfl,
    List.cons_append,
    show usageName i = 'w' :: ("arehouse_usage_".data ++ i) from rfl] at ht
  injection ht with h1 _
  exact absurd h1 (by decide)

/-! ### Behaviour of the extraction loop -/

/-- A declaration is harmless for key `k` and value `v₀`: if its name is a
`shipment_count_` name, it parses, and if it parses to `k` its stored value
is `v₀`. -/
def StepGood (a : WVar → ℚ) (k : Str × Str) (v₀ : ℤ) (v : VarDecl WVar) : Prop :=
  ("shipment_count_".data) <+: v.name →
    ∃ p : Str × Str, parseShipmentKey v.name = some p ∧
      (p = k → pytrunc (a v.idx) = v₀)

/-- A declaration whose step writes key `k` into `shipment_counts`. -/
def WritesK (k : Str × Str) (v : VarDecl WVar) : Prop :=
  ("shipment_count_".data) <+: v.name ∧ parseShipmentKey v.name = some k

theorem extract_fold_total (a : WVar → ℚ) :
    ∀ (l : List (VarDecl WVar)) (st : ExtractState),
      (∀ v ∈ l, ("shipment_count_".data) <+: v.name → parseShipmentKey v.name ≠ none) →
      ∃ st', l.foldlM (extractStep a) st = some st'
  | [], st, _ => ⟨st, rfl⟩
  | v :: l, st, h => by
    rw [List.foldlM_cons]
    by_cases hpref : ("shipment_count_".data) <+: v.name
    · rcases hp : parseShipmentKey v.name with _ | ⟨i, j⟩
      · exact absurd hp (h v (List.mem_cons_self _ _) hpref)
      · rw [extractStep, if_pos hpref, hp]
        simp only [Option.bind_eq_bind, Option.some_bind]
        exact extract_fold_total a l _ (fun w hw => h w (List.mem_cons_of_mem _ hw))
    · rw [extractStep, if_neg hpref]
      by_cases husage : ("warehouse_usage_".data) <+: v.name
      · rw [if_pos husage]
        simp only [Option.bind_eq_bind, Option.some_bind]
        exact extract_fold_total a l _ (fun w hw => h w (List.mem_cons_of_mem _ hw))
      · rw [if_neg husage]
        simp only [Option.bind_eq_bind, Option.some_bind]
        exact extract_fold_total a l _ (fun w hw => h w (List.mem_cons_of_mem _ hw))

theorem extract_fold_key (a : WVar → ℚ) (k : Str × Str) (v₀ : ℤ) :
    ∀ (l : List (VarDecl WVar)) (st st' : ExtractState),
      l.foldlM (extractStep a) st = some st' →
      (∀ v ∈ l, StepGood a k v₀ v) →
      ((∃ v ∈ l, WritesK k v) ∨ st.shipment_counts k = some v₀) →
      st'.shipment_counts k = some v₀
  | [], st, st', hfold, _, hdisj => by
    rcases hdisj with ⟨v, hv, _⟩ | hst
    · exact absurd hv (List.not_mem_nil v)
    · cases hfold
      exact hst
  | v :: l, st, st', hfold, hgood, hdisj => by
    rw [List.foldlM_cons] at hfold
    by_cases hpref : ("shipment_count_".data) <+: v.name
    · obtain ⟨p, hp, himpl⟩ := hgood v (List.mem_cons_self _ _) hpref
      rw [extractStep, if_pos hpref, hp] at hfold
      simp only [Option.bind_eq_bind, Option.some_bind] at hfold
      refine extract_fold_key a k v₀ l _ st' hfold
        (fun w hw => hgood w (List.mem_cons_of_mem _ hw)) ?_
      by_cases hpk : p = k
      · right
        simp only [dictPut]
        rw [if_pos hpk.symm]
        exact congrArg some (himpl hpk)
      · rcases hdisj with ⟨w, hw, hwk⟩ | hst
        · rcases List.mem_cons.mp hw with rfl | hw'
          · rw [hwk.2] at hp
            exact absurd (Option.some.inj hp).symm hpk
          · exact Or.inl ⟨w, hw', hwk⟩
        · right
          simp only [dictPut]
          rw [if_neg (fun hk => hpk (hk.symm))]
          exact hst
    · have hdisj' : (∃ w ∈ l, WritesK k w) ∨ st.shipment_counts k = some v₀ := by
        rcases hdisj with ⟨w, hw, hwk⟩ | hst
        · rcases List.mem_cons.mp hw with rfl | hw'
          · exact absurd hwk.1 hpref
          · exact Or.inl ⟨w, hw', hwk⟩
        · exact Or.inr hst
      rw [extractStep, if_neg hpref] at hfold
      by_cases husage : ("warehouse_usage_".data) <+: v.name
      · rw [if_pos husage] at hfold
        simp only [Option.bind_eq_bind, Option.some_bind] at hfold
        exact extract_fold_key a k v₀ l _ st' hfold
          (fun w hw => hgood w (List.mem_cons_of_mem _ hw)) hdisj'
      · rw [if_neg husage] at hfold
        simp only [Option.bind_eq_bind, Option.some_bind] at hfold
        exact extract_fold_key a k v₀ l _ st' hfold
          (fun w hw => hgood w (List.mem_cons_of_mem _ hw)) hdisj'

/-- Membership in the warehouse variable list, characterised. -/
theorem mem_wVars_iff (inp : WInput) (v : VarDecl WVar) :
    v ∈ wVars inp ↔
      (∃ i ∈ inp.warehouses, ∃ j ∈ inp.destinations, v = shipCountDecl inp i j)
      ∨ (∃ i ∈ inp.warehouses, v = usageDecl i) := by
  simp only [wVars, List.mem_append, List.mem_flatMap, List.mem_map]
  constructor
  · rintro (⟨i, hi, j, hj, rfl⟩ | ⟨i, hi, rfl⟩)
    · exact Or.inl ⟨i, hi, j, hj, rfl⟩
    · exact Or.inr ⟨i, hi, rfl⟩
  · rintro (⟨i, hi, j, hj, rfl⟩ | ⟨i, hi, rfl⟩)
    · exact Or.inl ⟨i, hi, j, hj, rfl⟩
    · exact Or.inr ⟨i, hi, rfl⟩

/-- When no warehouse or destination name contains an underscore, the
extraction loop completes and recovers, at each (warehouse, destination)
key, exactly the truncated solver value of that pair's flow variable. -/
theorem extraction_correct (winp : WInput) (a : WVar → ℚ)
    (hW : ∀ i ∈ winp.warehouses, '_' ∉ i)
    (hD : ∀ j ∈ winp.destinations, '_' ∉ j) :
    ∃ st', extractSolution (WarehouseShipments.optimize_shipments winp) a = some st' ∧
      ∀ i ∈ winp.warehouses, ∀ j ∈ winp.destinations,
        st'.shipment_counts (i, j) = some (pytrunc (a (.shipmentCount i j))) := by
  have hvars : (WarehouseShipments.optimize_shipments winp).vars = wVars winp := rfl
  have hparse : ∀ v ∈ wVars winp,
      ("shipment_count_".data) <+: v.name → parseShipmentKey v.name ≠ none := by
    intro v hv hpref
    rcases (mem_wVars_iff winp v).mp hv with ⟨i, hi, j, hj, rfl⟩ | ⟨i, hi, rfl⟩
    · rw [show (shipCountDecl winp i j).name = shipCountName i j from rfl,
        parseShipmentKey_clean i j (hW i hi) (hD j hj)]
      simp
    · exact absurd hpref (shipment_not_starts_usageName i)
  obtain ⟨st', hst'⟩ :=
    extract_fold_total a (wVars winp) ⟨fun _ => none, fun _ => none⟩ hparse
  refine ⟨st', hst', ?_⟩
  intro i hi j hj
  refine extract_fold_key a (i, j) (pytrunc (a (.shipmentCount i j)))
    (wVars winp) _ st' hst' ?_ ?_
  · intro v hv
    rcases (mem_wVars_iff winp v).mp hv with ⟨i', hi', j', hj', rfl⟩ | ⟨i', hi', rfl⟩
    · intro _
      refine ⟨(i', j'), parseShipmentKey_clean i' j' (hW i' hi') (hD j' hj'), ?_⟩
      intro hk
      obtain ⟨rfl, rfl⟩ := Prod.mk.injEq .. ▸ hk
      rfl
    · intro hpref
      exact absurd hpref (shipment_not_starts_usageName i')
  · exact Or.inl ⟨shipCountDecl winp i j, mem_wVars_shipCount winp hi hj,
      shipment_starts_shipCountName i j, parseShipmentKey_clean i j (hW i hi) (hD j hj)⟩

/-! ### Concrete instances used for witnesses and counterexamples -/

theorem range_one_eq : List.range 1 = [0] := rfl

/-- Carrier name `"c"`. -/
def sC : Str := "c".data

/-- Destination name `"d"`. -/
def sD : Str := "d".data

/-- Warehouse name `"w"`. -/
def sW : Str := "w".data

/-- A one-year, one-carrier, one-destination, one-tier instance with target
10, tiers `[0]`, discounts `[1.0]`, parameterised by the unit-cost dict. -/
def exCcost (f : Str → Str → ℚ) : CarrierInput :=
  { num_years := 1, carriers := [sC], destinations := [sD],
    shipment_target := [fun _ => 10], shipment_cost := f,
    tier_min_quantity := [0], discount_rate := fun _ => [1] }

/-- The instance with unit cost 5. -/
def exC : CarrierInput := exCcost (fun _ _ => 5)

/-- The unique feasible point of `exCcost f`: ship 10 units, tier 0 active. -/
def aC : CVar → ℚ := fun v =>
  match v with
  | .ship _ _ _ _ => 10
  | .tierFlag _ _ _ => 1

theorem exCcost_vars (f : Str → Str → ℚ) :
    (carrierModel (exCcost f)).vars
      = [shipDecl (exCcost f) 0 sC 0 sD, tierFlagDecl 0 sC 0] := rfl

theorem exCcost_constraints (f : Str → Str → ℚ) :
    (carrierModel (exCcost f)).constraints
      = [exactlyOneC (exCcost f) 0 sC, gateC (exCcost f) 0 sC 0 sD,
         tierMinC (exCcost f) 0 sC 0, destEqC (exCcost f) 0 sD] := rfl

theorem exCcost_feasible (f : Str → Str → ℚ) :
    (carrierModel (exCcost f)).Feasible aC := by
  constructor
  · intro dcl hdcl
    rw [exCcost_vars] at hdcl
    rcases List.mem_cons.mp hdcl with rfl | hdcl
    · refine ⟨?_, ?_, ?_⟩
      · show (0 : ℚ) ≤ 10
        norm_num
      · show (10 : ℚ) ≤ targetAt (exCcost f) 0 sD
        show (10 : ℚ) ≤ 10
        norm_num
      · show (10 : ℚ).den = 1
        rfl
    · rcases List.mem_cons.mp hdcl with rfl | hdcl
      · exact ⟨trivial, trivial, Or.inr rfl⟩
      · exact absurd hdcl (List.not_mem_nil _)
  · intro cons hcons
    rw [exCcost_constraints] at hcons
    rcases List.mem_cons.mp hcons with rfl | hcons
    · show (lpSum ((List.range (numTiers (exCcost f))).map fun t =>
        var1 (CVar.tierFlag 0 sC t))).eval aC = (constE 1).eval aC
      rw [eval_lpSum, eval_constE]
      simp [numTiers, exCcost, range_one_eq, Function.comp_def, eval_var1, aC]
    · rcases List.mem_cons.mp hcons with rfl | hcons
      · show (var1 (CVar.ship 0 sC 0 sD)).eval aC
          ≤ (termE (targetAt (exCcost f) 0 sD) (CVar.tierFlag 0 sC 0)).eval aC
        rw [eval_var1, eval_termE]
        show (10 : ℚ) ≤ 10 * 1
        norm_num
      · rcases List.mem_cons.mp hcons with rfl | hcons
        · show (termE (tierMinAt (exCcost f) 0) (CVar.tierFlag 0 sC 0)).eval aC
            ≤ (lpSum ((exCcost f).destinations.map fun d =>
              var1 (CVar.ship 0 sC 0 d))).eval aC
          rw [eval_termE, eval_lpSum]
          simp [exCcost, eval_var1, aC, tierMinAt]
        · rcases List.mem_cons.mp hcons with rfl | hcons
          · show (lpSum ((exCcost f).carriers.flatMap fun c =>
              (List.range (numTiers (exCcost f))).map fun t =>
                var1 (CVar.ship 0 c t sD))).eval aC
              = (constE (targetAt (exCcost f) 0 sD)).eval aC
            rw [eval_lpSum, eval_constE]
            simp [exCcost, numTiers, range_one_eq, Function.comp_def, eval_var1, aC,
              targetAt]
          · exact absurd hcons (List.not_mem_nil _)

theorem exCcost_objValue (f : Str → Str → ℚ) (b : CVar → ℚ) :
    (carrierModel (exCcost f)).objValue b = f sC sD * b (.ship 0 sC 0 sD) := by
  have he : carrierObjective (exCcost f)
      = lpSum [termE (f sC sD * discountAt (exCcost f) sC 0) (.ship 0 sC 0 sD)] := rfl
  show (carrierObjective (exCcost f)).eval b = _
  rw [he, eval_lpSum]
  simp [eval_termE, discountAt, exCcost]

theorem exCcost_forced_ship (f : Str → Str → ℚ) (b : CVar → ℚ)
    (hb : (carrierModel (exCcost f)).Feasible b) :
    b (.ship 0 sC 0 sD) = 10 := by
  have h := feasible_destEq_sum hb
    (show 0 < (exCcost f).num_years by norm_num [exCcost])
    (show sD ∈ (exCcost f).destinations by simp [exCcost])
  simpa [exCcost, numTiers, targetAt, range_one_eq] using h

theorem exCcost_isOptimal (f : Str → Str → ℚ) :
    (carrierModel (exCcost f)).IsOptimal aC := by
  refine ⟨exCcost_feasible f, fun b hb => ?_⟩
  rw [exCcost_objValue, exCcost_objValue, exCcost_forced_ship f b hb]
  rw [show aC (.ship 0 sC 0 sD) = 10 from rfl]

/-- A one-warehouse, one-destination network instance with target 5,
capacity 5, fixed cost 3, tolerance 1, all routes on time, parameterised by
the unit-cost dict. -/
def exWcost (f : Str → Str → ℚ) : WInput :=
  { warehouses := [sW], destinations := [sD], target_distribution := fun _ => 5,
    shipment_capacity := fun _ _ => 5, warehouse_cost := fun _ => 3,
    shipment_cost := f, target_delivery_days := 2, delivery_tolerance := 1,
    delivery_estimate := fun _ _ => 1 }

/-- The instance with unit cost 2. -/
def exW : WInput := exWcost (fun _ _ => 2)

/-- The unique feasible point of `exWcost f`: 5 shipments, warehouse active. -/
def aW : WVar → ℚ := fun v =>
  match v with
  | .shipmentCount _ _ => 5
  | .warehouseUsage _ => 1

theorem exWcost_vars (f : Str → Str → ℚ) :
    (WarehouseShipments.optimize_shipments (exWcost f)).vars
      = [shipCountDecl (exWcost f) sW sD, usageDecl sW] := rfl

theorem exWcost_constraints (f : Str → Str → ℚ) :
    (WarehouseShipments.optimize_shipments (exWcost f)).constraints
      = [usageGateC (exWcost f) sW sD, distEqC (exWcost f) sD,
         deliveryC (exWcost f) sD] := rfl

theorem exWcost_feasible (f : Str → Str → ℚ) :
    (WarehouseShipments.optimize_shipments (exWcost f)).Feasible aW := by
  constructor
  · intro dcl hdcl
    rw [exWcost_vars] at hdcl
    rcases List.mem_cons.mp hdcl with rfl | hdcl
    · refine ⟨?_, ?_, ?_⟩
      · show (0 : ℚ) ≤ 5
        norm_num
      · show (5 : ℚ) ≤ (exWcost f).shipment_capacity sW sD
        show (5 : ℚ) ≤ 5
        norm_num
      · show (5 : ℚ).den = 1
        rfl
    · rcases List.mem_cons.mp hdcl with rfl | hdcl
      · exact ⟨trivial, trivial, Or.inr rfl⟩
      · exact absurd hdcl (List.not_mem_nil _)
  · intro cons hcons
    rw [exWcost_constraints] at hcons
    rcases List.mem_cons.mp hcons with rfl | hcons
    · show (var1 (WVar.shipmentCount sW sD)).eval aW
        ≤ (termE ((exWcost f).shipment_capacity sW sD) (WVar.warehouseUsage sW)).eval aW
      rw [eval_var1, eval_termE]
      show (5 : ℚ) ≤ 5 * 1
      norm_num
    · rcases List.mem_cons.mp hcons with rfl | hcons
      · show (lpSum ((exWcost f).warehouses.map fun i =>
          var1 (WVar.shipmentCount i sD))).eval aW
          = (constE ((exWcost f).target_distribution sD)).eval aW
        rw [eval_lpSum, eval_constE]
        simp [exWcost, Function.comp_def, eval_var1, aW]
      · rcases List.mem_cons.mp hcons with rfl | hcons
        · show (lpSum ((exWcost f).warehouses.map fun i =>
            termE (deliveryTargetFailure (exWcost f) i sD)
              (WVar.shipmentCount i sD))).eval aW
            ≤ (scaleExp (exWcost f).delivery_tolerance
              (lpSum ((exWcost f).warehouses.map fun i =>
                var1 (WVar.shipmentCount i sD)))).eval aW
          rw [eval_lpSum, eval_scaleExp, eval_lpSum]
          simp [exWcost, Function.comp_def, eval_var1, eval_termE, aW,
            deliveryTargetFailure]
        · exact absurd hcons (List.not_mem_nil _)

theorem exWcost_objValue (f : Str → Str → ℚ) (b : WVar → ℚ) :
    (WarehouseShipments.optimize_shipments (exWcost f)).objValue b
      = f sW sD * b (.shipmentCount sW sD) + 3 * b (.warehouseUsage sW) := by
  have he : wObjective (exWcost f)
      = addExp (lpSum [termE (f sW sD) (.shipmentCount sW sD)])
          (lpSum [termE ((3 : ℚ)) (.warehouseUsage sW)]) := rfl
  show (wObjective (exWcost f)).eval b = _
  rw [he, eval_addExp, eval_lpSum, eval_lpSum]
  simp [eval_termE]

theorem exWcost_forced (f : Str → Str → ℚ) (b : WVar → ℚ)
    (hb : (WarehouseShipments.optimize_shipments (exWcost f)).Feasible b) :
    b (.shipmentCount sW sD) = 5 ∧ b (.warehouseUsage sW) = 1 := by
  have hcnt : b (.shipmentCount sW sD) = 5 := by
    have h := wFeasible_distEq_sum hb (show sD ∈ (exWcost f).destinations by
      simp [exWcost])
    simpa [exWcost] using h
  refine ⟨hcnt, ?_⟩
  have hgate := wFeasible_usageGate hb (show sW ∈ (exWcost f).warehouses by
    simp [exWcost]) (show sD ∈ (exWcost f).destinations by simp [exWcost])
  rw [hcnt] at hgate
  rcases wFeasible_usage_binary hb (show sW ∈ (exWcost f).warehouses by
    simp [exWcost]) with h0 | h1
  · rw [h0] at hgate
    have : (exWcost f).shipment_capacity sW sD * 0 = 0 := by ring
    rw [this] at hgate
    norm_num at hgate
  · exact h1

theorem exWcost_isOptimal (f : Str → Str → ℚ) :
    (WarehouseShipments.optimize_shipments (exWcost f)).IsOptimal aW := by
  refine ⟨exWcost_feasible f, fun b hb => ?_⟩
  obtain ⟨h1, h2⟩ := exWcost_forced f b hb
  rw [exWcost_objValue, exWcost_objValue, h1, h2]
  rw [show aW (.shipmentCount sW sD) = 5 from rfl,
    show aW (.warehouseUsage sW) = 1 from rfl]

/-- Zero-target variant of the network instance. -/
def exW0 : WInput :=
  { warehouses := [sW], destinations := [sD], target_distribution := fun _ => 0,
    shipment_capacity := fun _ _ => 5, warehouse_cost := fun _ => 3,
    shipment_cost := fun _ _ => 2, target_delivery_days := 2,
    delivery_tolerance := 1, delivery_estimate := fun _ _ => 1 }

/-- A feasible point of `exW0` which activates the warehouse anyway. -/
def aW0 : WVar → ℚ := fun v =>
  match v with
  | .shipmentCount _ _ => 0
  | .warehouseUsage _ => 1

theorem exW0_feasible : (WarehouseShipments.optimize_shipments exW0).Feasible aW0 := by
  constructor
  · intro dcl hdcl
    rcases List.mem_cons.mp hdcl with rfl | hdcl
    · refine ⟨?_, ?_, ?_⟩
      · show (0 : ℚ) ≤ 0
        norm_num
      · show (0 : ℚ) ≤ 5
        norm_num
      · show (0 : ℚ).den = 1
        rfl
    · rcases List.mem_cons.mp hdcl with rfl | hdcl
      · exact ⟨trivial, trivial, Or.inr rfl⟩
      · exact absurd hdcl (List.not_mem_nil _)
  · intro cons hcons
    rcases List.mem_cons.mp hcons with rfl | hcons
    · show (var1 (WVar.shipmentCount sW sD)).eval aW0
        ≤ (termE (exW0.shipment_capacity sW sD) (WVar.warehouseUsage sW)).eval aW0
      rw [eval_var1, eval_termE]
      show (0 : ℚ) ≤ 5 * 1
      norm_num
    · rcases List.mem_cons.mp hcons with rfl | hcons
      · show (lpSum (exW0.warehouses.map fun i =>
          var1 (WVar.shipmentCount i sD))).eval aW0
          = (constE (exW0.target_distribution sD)).eval aW0
        rw [eval_lpSum, eval_constE]
        simp [exW0, Function.comp_def, eval_var1, aW0]
      · rcases List.mem_cons.mp hcons with rfl | hcons
        · show (lpSum (exW0.warehouses.map fun i =>
            termE (deliveryTargetFailure exW0 i sD)
              (WVar.shipmentCount i sD))).eval aW0
            ≤ (scaleExp exW0.delivery_tolerance
              (lpSum (exW0.warehouses.map fun i =>
                var1 (WVar.shipmentCount i sD)))).eval aW0
          rw [eval_lpSum, eval_scaleExp, eval_lpSum]
          simp [exW0, Function.comp_def, eval_var1, eval_termE, aW0,
            deliveryTargetFailure]
        · exact absurd hcons (List.not_mem_nil _)

theorem exW0_objValue : (WarehouseShipments.optimize_shipments exW0).objValue aW0 = 3 := by
  have he : wObjective exW0
      = addExp (lpSum [termE ((2 : ℚ)) (.shipmentCount sW sD)])
          (lpSum [termE ((3 : ℚ)) (.warehouseUsage sW)]) := rfl
  show (wObjective exW0).eval aW0 = 3
  rw [he, eval_addExp, eval_lpSum, eval_lpSum]
  simp [eval_termE]
  norm_num [show aW0 (.shipmentCount sW sD) = 0 from rfl,
    show aW0 (.warehouseUsage sW) = 1 from rfl]

/-- Zero-target variant of the carrier instance. -/
def exC0 : CarrierInput :=
  { num_years := 1, carriers := [sC], destinations := [sD],
    shipment_target := [fun _ => 0], shipment_cost := fun _ _ => 5,
    tier_min_quantity := [0], discount_rate := fun _ => [1] }

/-- The feasible point of `exC0`: no flow, tier 0 active. -/
def aC0 : CVar → ℚ := fun v =>
  match v with
  | .ship _ _ _ _ => 0
  | .tierFlag _ _ _ => 1

theorem exC0_feasible : (carrierModel exC0).Feasible aC0 := by
  constructor
  · intro dcl hdcl
    rcases List.mem_cons.mp hdcl with rfl | hdcl
    · refine ⟨?_, ?_, ?_⟩
      · show (0 : ℚ) ≤ 0
        norm_num
      · show (0 : ℚ) ≤ targetAt exC0 0 sD
        show (0 : ℚ) ≤ 0
        norm_num
      · show (0 : ℚ).den = 1
        rfl
    · rcases List.mem_cons.mp hdcl with rfl | hdcl
      · exact ⟨trivial, trivial, Or.inr rfl⟩
      · exact absurd hdcl (List.not_mem_nil _)
  · intro cons hcons
    rcases List.mem_cons.mp hcons with rfl | hcons
    · show (lpSum ((List.range (numTiers exC0)).map fun t =>
        var1 (CVar.tierFlag 0 sC t))).eval aC0 = (constE 1).eval aC0
      rw [eval_lpSum, eval_constE]
      simp [numTiers, exC0, range_one_eq, Function.comp_def, eval_var1, aC0]
    · rcases List.mem_cons.mp hcons with rfl | hcons
      · show (var1 (CVar.ship 0 sC 0 sD)).eval aC0
          ≤ (termE (targetAt exC0 0 sD) (CVar.tierFlag 0 sC 0)).eval aC0
        rw [eval_var1, eval_termE]
        show (0 : ℚ) ≤ 0 * 1
        norm_num
      · rcases List.mem_cons.mp hcons with rfl | hcons
        · show (termE (tierMinAt exC0 0) (CVar.tierFlag 0 sC 0)).eval aC0
            ≤ (lpSum (exC0.destinations.map fun d =>
              var1 (CVar.ship 0 sC 0 d))).eval aC0
          rw [eval_termE, eval_lpSum]
          simp [exC0, Function.comp_def, eval_var1, aC0, tierMinAt]
        · rcases List.mem_cons.mp hcons with rfl | hcons
          · show (lpSum (exC0.carriers.flatMap fun c =>
              (List.range (numTiers exC0)).map fun t =>
                var1 (CVar.ship 0 c t sD))).eval aC0
              = (constE (targetAt exC0 0 sD)).eval aC0
            rw [eval_lpSum, eval_constE]
            simp [exC0, numTiers, range_one_eq, Function.comp_def, eval_var1, aC0,
              targetAt]
          · exact absurd hcons (List.not_mem_nil _)

theorem exC0_forced_flag (b : CVar → ℚ) (hb : (carrierModel exC0).Feasible b) :
    b (.tierFlag 0 sC 0) = 1 := by
  have h := feasible_exactlyOne_sum hb (show 0 < exC0.num_years by norm_num [exC0])
    (show sC ∈ exC0.carriers by simp [exC0])
  simpa [exC0, numTiers, range_one_eq] using h

/-- A carrier input with non-monotonic tier thresholds not starting at 0 —
and consistent list lengths. -/
def exNonMono : CarrierInput :=
  { num_years := 1, carriers := [sC], destinations := [sD],
    shipment_target := [fun _ => 10], shipment_cost := fun _ _ => 5,
    tier_min_quantity := [5, 3], discount_rate := fun _ => [1, 1] }

/-- A carrier input whose discount list is shorter than the tier list. -/
def exShortDiscount : CarrierInput :=
  { num_years := 1, carriers := [sC], destinations := [sD],
    shipment_target := [fun _ => 10], shipment_cost := fun _ _ => 5,
    tier_min_quantity := [0, 5], discount_rate := fun _ => [1] }

/-! ### Zero-target consequences -/

theorem carrier_zero_target_flows {inp : CarrierInput} {a : CVar → ℚ}
    (h : (carrierModel inp).Feasible a) {y : Nat} {d : Str}
    (hy : y < inp.num_years) (hd : d ∈ inp.destinations)
    (h0 : targetAt inp y d = 0) :
    ∀ c ∈ inp.carriers, ∀ t < numTiers inp, a (.ship y c t d) = 0 := by
  have hsum := feasible_destEq_sum h hy hd
  rw [h0] at hsum
  have houter : ∀ x ∈ (inp.carriers.map fun c =>
      ((List.range (numTiers inp)).map fun t => a (.ship y c t d)).sum), 0 ≤ x := by
    intro x hx
    obtain ⟨c, hc, rfl⟩ := List.mem_map.mp hx
    refine List.sum_nonneg ?_
    intro z hz
    obtain ⟨t, ht, rfl⟩ := List.mem_map.mp hz
    exact (feasible_ship_bounds h hy hc (List.mem_range.mp ht) hd).1
  have hz := all_zero_of_sum_zero _ houter hsum
  intro c hc t ht
  have hinner : ((List.range (numTiers inp)).map fun t => a (.ship y c t d)).sum = 0 :=
    hz _ (List.mem_map_of_mem _ hc)
  have hterms : ∀ z ∈ ((List.range (numTiers inp)).map fun t => a (.ship y c t d)),
      0 ≤ z := by
    intro z hz'
    obtain ⟨t', ht', rfl⟩ := List.mem_map.mp hz'
    exact (feasible_ship_bounds h hy hc (List.mem_range.mp ht') hd).1
  exact all_zero_of_sum_zero _ hterms hinner _
    (List.mem_map_of_mem _ (List.mem_range.mpr ht))

theorem w_zero_target_flows {inp : WInput} {a : WVar → ℚ}
    (h : (WarehouseShipments.optimize_shipments inp).Feasible a) {j : Str}
    (hj : j ∈ inp.destinations) (h0 : inp.target_distribution j = 0) :
    ∀ i ∈ inp.warehouses, a (.shipmentCount i j) = 0 := by
  have hsum := wFeasible_distEq_sum h hj
  rw [h0] at hsum
  have hn : ∀ x ∈ (inp.warehouses.map fun i => a (.shipmentCount i j)), 0 ≤ x := by
    intro x hx
    obtain ⟨i, hi, rfl⟩ := List.mem_map.mp hx
    exact (wFeasible_shipCount_bounds h hi hj).1
  intro i hi
  exact all_zero_of_sum_zero _ hn hsum _ (List.mem_map_of_mem _ hi)

/-! ### Objective closed forms -/

theorem carrier_objValue_eval (inp : CarrierInput) (b : CVar → ℚ) :
    (carrierModel inp).objValue b =
      ((List.range inp.num_years).map fun y =>
        (inp.carriers.map fun c =>
          ((List.range (numTiers inp)).map fun t =>
            (inp.destinations.map fun d =>
              inp.shipment_cost c d * discountAt inp c t * b (.ship y c t d)).sum).sum).sum).sum := by
  show (carrierObjective inp).eval b = _
  unfold carrierObjective
  rw [eval_lpSum]
  simp only [sum_flatMap, List.map_map, Function.comp_def, eval_termE]

theorem w_objValue_eval (inp : WInput) (b : WVar → ℚ) :
    (WarehouseShipments.optimize_shipments inp).objValue b =
      (inp.warehouses.map fun i =>
        (inp.destinations.map fun j =>
          inp.shipment_cost i j * b (.shipmentCount i j)).sum).sum
      + (inp.warehouses.map fun i =>
          inp.warehouse_cost i * b (.warehouseUsage i)).sum := by
  show (wObjective inp).eval b = _
  unfold wObjective
  rw [eval_addExp, eval_lpSum, eval_lpSum]
  simp only [sum_flatMap, List.map_map, Function.comp_def, eval_termE]

/-- Objective of the carrier model when the single destination's targets are
all zero: every feasible assignment has objective 0. -/
theorem carrier_zero_target_objValue {inp : CarrierInput} {a : CVar → ℚ} {d : Str}
    (h : (carrierModel inp).Feasible a) (hdest : inp.destinations = [d])
    (h0 : ∀ y < inp.num_years, targetAt inp y d = 0) :
    (carrierModel inp).objValue a = 0 := by
  rw [carrier_objValue_eval]
  refine List.sum_eq_zero ?_
  intro x hx
  obtain ⟨y, hy, rfl⟩ := List.mem_map.mp hx
  refine List.sum_eq_zero ?_
  intro x hx
  obtain ⟨c, hc, rfl⟩ := List.mem_map.mp hx
  refine List.sum_eq_zero ?_
  intro x hx
  obtain ⟨t, ht, rfl⟩ := List.mem_map.mp hx
  refine List.sum_eq_zero ?_
  intro x hx
  obtain ⟨d', hd', rfl⟩ := List.mem_map.mp hx
  have hd'' : d' = d := by
    rw [hdest] at hd'
    exact List.mem_singleton.mp hd'
  subst hd''
  have hflow := carrier_zero_target_flows h (List.mem_range.mp hy)
    (hdest ▸ List.mem_singleton.mpr rfl) (h0 y (List.mem_range.mp hy))
    c hc t (List.mem_range.mp ht)
  rw [hflow, mul_zero]

/-- Objective of the warehouse model when the single destination's target is
zero: it reduces to the fixed-activation part. -/
theorem w_zero_target_objValue {inp : WInput} {a : WVar → ℚ} {d : Str}
    (h : (WarehouseShipments.optimize_shipments inp).Feasible a)
    (hdest : inp.destinations = [d]) (h0 : inp.target_distribution d = 0) :
    (WarehouseShipments.optimize_shipments inp).objValue a
      = (inp.warehouses.map fun i =>
          inp.warehouse_cost i * a (.warehouseUsage i)).sum := by
  rw [w_objValue_eval]
  have hvar : (inp.warehouses.map fun i =>
      (inp.destinations.map fun j =>
        inp.shipment_cost i j * a (.shipmentCount i j)).sum).sum = 0 := by
    refine List.sum_eq_zero ?_
    intro x hx
    obtain ⟨i, hi, rfl⟩ := List.mem_map.mp hx
    refine List.sum_eq_zero ?_
    intro x hx
    obtain ⟨j, hj, rfl⟩ := List.mem_map.mp hx
    have hj' : j = d := by
      rw [hdest] at hj
      exact List.mem_singleton.mp hj
    subst hj'
    rw [w_zero_target_flows h (hdest ▸ List.mem_singleton.mpr rfl) h0 i hi, mul_zero]
  rw [hvar, zero_add]

/-- Membership in the warehouse constraint list, characterised. -/
theorem mem_wConstraints_iff (inp : WInput) (c : Constr WVar) :
    c ∈ wConstraints inp ↔
      (∃ i ∈ inp.warehouses, ∃ j ∈ inp.destinations, c = usageGateC inp i j)
      ∨ (∃ j ∈ inp.destinations, c = distEqC inp j)
      ∨ (∃ j ∈ inp.destinations, c = deliveryC inp j) := by
  simp only [wConstraints, List.mem_append, List.mem_flatMap, List.mem_map]
  constructor
  · rintro ((⟨i, hi, j, hj, rfl⟩ | ⟨j, hj, rfl⟩) | ⟨j, hj, rfl⟩)
    · exact Or.inl ⟨i, hi, j, hj, rfl⟩
    · exact Or.inr (Or.inl ⟨j, hj, rfl⟩)
    · exact Or.inr (Or.inr ⟨j, hj, rfl⟩)
  · rintro (⟨i, hi, j, hj, rfl⟩ | ⟨j, hj, rfl⟩ | ⟨j, hj, rfl⟩)
    · exact Or.inl (Or.inl ⟨i, hi, j, hj, rfl⟩)
    · exact Or.inl (Or.inr ⟨j, hj, rfl⟩)
    · exact Or.inr ⟨j, hj, rfl⟩

/-- With all targets zero and non-negative capacities, the all-zero
assignment is feasible in the warehouse model: no activation variable is
forced to 1 there. -/
theorem w_zero_assignment_feasible (inp : WInput)
    (hcap : ∀ i ∈ inp.warehouses, ∀ j ∈ inp.destinations, 0 ≤ inp.shipment_capacity i j)
    (h0 : ∀ j ∈ inp.destinations, inp.target_distribution j = 0) :
    (WarehouseShipments.optimize_shipments inp).Feasible (fun _ => 0) := by
  constructor
  · intro dcl hdcl
    rcases (mem_wVars_iff inp dcl).mp hdcl with ⟨i, hi, j, hj, rfl⟩ | ⟨i, hi, rfl⟩
    · exact ⟨le_refl 0, hcap i hi j hj, rfl⟩
    · exact ⟨trivial, trivial, Or.inl rfl⟩
  · intro cons hcons
    rcases (mem_wConstraints_iff inp cons).mp hcons with
      ⟨i, hi, j, hj, rfl⟩ | ⟨j, hj, rfl⟩ | ⟨j, hj, rfl⟩
    · show (var1 (WVar.shipmentCount i j)).eval (fun _ => 0)
        ≤ (termE (inp.shipment_capacity i j) (WVar.warehouseUsage i)).eval (fun _ => 0)
      rw [eval_var1, eval_termE, mul_zero]
    · show (lpSum (inp.warehouses.map fun i =>
        var1 (WVar.shipmentCount i j))).eval (fun _ => 0)
        = (constE (inp.target_distribution j)).eval (fun _ => 0)
      rw [eval_lpSum, eval_constE, h0 j hj]
      refine List.sum_eq_zero ?_
      intro x hx
      obtain ⟨e, he, rfl⟩ := List.mem_map.mp hx
      obtain ⟨i, hi, rfl⟩ := List.mem_map.mp he
      rw [eval_var1]
    · show (lpSum (inp.warehouses.map fun i =>
        termE (deliveryTargetFailure inp i j) (WVar.shipmentCount i j))).eval (fun _ => 0)
        ≤ (scaleExp inp.delivery_tolerance
          (lpSum (inp.warehouses.map fun i =>
            var1 (WVar.shipmentCount i j)))).eval (fun _ => 0)
      rw [eval_lpSum, eval_scaleExp, eval_lpSum]
      have hl : ((inp.warehouses.map fun i =>
          termE (deliveryTargetFailure inp i j) (WVar.shipmentCount i j)).map
            (fun e => e.eval (fun _ => 0))).sum = 0 := by
        refine List.sum_eq_zero ?_
        intro x hx
        obtain ⟨e, he, rfl⟩ := List.mem_map.mp hx
        obtain ⟨i, hi, rfl⟩ := List.mem_map.mp he
        rw [eval_termE, mul_zero]
      have hr : ((inp.warehouses.map fun i =>
          var1 (WVar.shipmentCount i j)).map (fun e => e.eval (fun _ => 0))).sum = 0 := by
        refine List.sum_eq_zero ?_
        intro x hx
        obtain ⟨e, he, rfl⟩ := List.mem_map.mp hx
        obtain ⟨i, hi, rfl⟩ := List.mem_map.mp he
        rw [eval_var1]
      rw [hl, hr, mul_zero]

/-! ### Cost monotonicity machinery -/

/-- Increase one unit-cost entry by `δ`. -/
def bumpCost (f : Str → Str → ℚ) (c₀ d₀ : Str) (δ : ℚ) : Str → Str → ℚ :=
  fun c d => if c = c₀ ∧ d = d₀ then f c d + δ else f c d

theorem bumpCost_le (f : Str → Str → ℚ) (c₀ d₀ : Str) (δ : ℚ) (hδ : 0 ≤ δ)
    (c d : Str) : f c d ≤ bumpCost f c₀ d₀ δ c d := by
  unfold bumpCost
  split <;> linarith

/-- Two models with the same declarations and constraints have the same
feasible set. -/
theorem feasible_iff_of_eq {ι : Type} (m m' : Model ι)
    (hv : m'.vars = m.vars) (hc : m'.constraints = m.constraints) (b : ι → ℚ) :
    m'.Feasible b ↔ m.Feasible b := by
  unfold Model.Feasible
  rw [hv, hc]

theorem carrier_bump_vars_eq (inp : CarrierInput) (c₀ d₀ : Str) (δ : ℚ) :
    (carrierModel { inp with
      shipment_cost := bumpCost inp.shipment_cost c₀ d₀ δ }).vars
      = (carrierModel inp).vars := by
  cases inp
  rfl

theorem carrier_bump_constraints_eq (inp : CarrierInput) (c₀ d₀ : Str) (δ : ℚ) :
    (carrierModel { inp with
      shipment_cost := bumpCost inp.shipment_cost c₀ d₀ δ }).constraints
      = (carrierModel inp).constraints := by
  cases inp
  rfl

theorem carrier_feasible_bump_iff (inp : CarrierInput) (c₀ d₀ : Str) (δ : ℚ)
    (b : CVar → ℚ) :
    (carrierModel { inp with
      shipment_cost := bumpCost inp.shipment_cost c₀ d₀ δ }).Feasible b
      ↔ (carrierModel inp).Feasible b :=
  feasible_iff_of_eq _ _ (carrier_bump_vars_eq inp c₀ d₀ δ)
    (carrier_bump_constraints_eq inp c₀ d₀ δ) b

theorem w_bump_vars_eq (inp : WInput) (w₀ d₀ : Str) (δ : ℚ) :
    (WarehouseShipments.optimize_shipments { inp with
      shipment_cost := bumpCost inp.shipment_cost w₀ d₀ δ }).vars
      = (WarehouseShipments.optimize_shipments inp).vars := by
  cases inp
  rfl

theorem w_bump_constraints_eq (inp : WInput) (w₀ d₀ : Str) (δ : ℚ) :
    (WarehouseShipments.optimize_shipments { inp with
      shipment_cost := bumpCost inp.shipment_cost w₀ d₀ δ }).constraints
      = (WarehouseShipments.optimize_shipments inp).constraints := by
  cases inp
  rfl

theorem w_feasible_bump_iff (inp : WInput) (w₀ d₀ : Str) (δ : ℚ) (b : WVar → ℚ) :
    (WarehouseShipments.optimize_shipments { inp with
      shipment_cost := bumpCost inp.shipment_cost w₀ d₀ δ }).Feasible b
      ↔ (WarehouseShipments.optimize_shipments inp).Feasible b :=
  feasible_iff_of_eq _ _ (w_bump_vars_eq inp w₀ d₀ δ)
    (w_bump_constraints_eq inp w₀ d₀ δ) b

theorem carrier_obj_mono (inp : CarrierInput) (c₀ d₀ : Str) (δ : ℚ) (hδ : 0 ≤ δ)
    (hdisc : ∀ c ∈ inp.carriers, ∀ t < numTiers inp, 0 ≤ discountAt inp c t)
    (b : CVar → ℚ) (hb : (carrierModel inp).Feasible b) :
    (carrierModel inp).objValue b
      ≤ (carrierModel { inp with
          shipment_cost := bumpCost inp.shipment_cost c₀ d₀ δ }).objValue b := by
  obtain ⟨ny, car, dst, tgt, cost, tier, disc⟩ := inp
  rw [carrier_objValue_eval, carrier_objValue_eval]
  refine List.sum_le_sum ?_
  intro y hy
  refine List.sum_le_sum ?_
  intro c hc
  refine List.sum_le_sum ?_
  intro t ht
  refine List.sum_le_sum ?_
  intro d hd
  have h1 := bumpCost_le cost c₀ d₀ δ hδ c d
  have h2 := hdisc c hc t (List.mem_range.mp ht)
  have h3 := (feasible_ship_bounds hb (List.mem_range.mp hy) hc
    (List.mem_range.mp ht) hd).1
  exact mul_le_mul_of_nonneg_right
    (mul_le_mul_of_nonneg_right h1 h2) h3

theorem w_obj_mono (inp : WInput) (w₀ d₀ : Str) (δ : ℚ) (hδ : 0 ≤ δ)
    (b : WVar → ℚ) (hb : (WarehouseShipments.optimize_shipments inp).Feasible b) :
    (WarehouseShipments.optimize_shipments inp).objValue b
      ≤ (WarehouseShipments.optimize_shipments { inp with
          shipment_cost := bumpCost inp.shipment_cost w₀ d₀ δ }).objValue b := by
  obtain ⟨war, dst, tgt, cap, wcost, cost, days, tol, est⟩ := inp
  rw [w_objValue_eval, w_objValue_eval]
  refine add_le_add ?_ (le_refl _)
  refine List.sum_le_sum ?_
  intro i hi
  refine List.sum_le_sum ?_
  intro j hj
  have h1 := bumpCost_le cost w₀ d₀ δ hδ i j
  have h3 := (wFeasible_shipCount_bounds hb hi hj).1
  exact mul_le_mul_of_nonneg_right h1 h3

/-- A successful build returns exactly `carrierModel inp`. -/
theorem optimize_ok_eq {inp : CarrierInput} {m : Model CVar}
    (h : optimize_shipments inp = .ok m) : m = carrierModel inp := by
  unfold optimize_shipments at h
  split_ifs at h
  exact (Except.ok.inj h).symm

/-! ### Claim theorems -/

/-- **C1** (code bug, evaluated at the failing input): at the one-year,
one-carrier (`"c"`), one-destination (`"d"`), one-tier instance `exC` with
unit cost 5, discount multiplier 1 and target 10, the unique (hence optimal)
solution `aC` ships 10 units; `print_solution` prints a per-destination Cost
of 10 (it computes `shipments * discount_rate` only — `shipment_cost` is not
among its parameters), while the claim's value, shipments × unit cost ×
discount, is 50, as is the optimal objective; the printed year total 10 does
not equal the optimal objective 50 even though the same output's header
line prints that objective as the Optimal Total Cost. -/
theorem C1_printed_cost_mismatch :
    (carrierModel exC).IsOptimal aC
    ∧ printedDestCost exC aC 0 sC sD = 10
    ∧ ((List.range (numTiers exC)).map fun t =>
        aC (.ship 0 sC t sD) * exC.shipment_cost sC sD * discountAt exC sC t).sum = 50
    ∧ printedYearTotal exC aC 0 = 10
    ∧ (carrierModel exC).objValue aC = 50 := by
  refine ⟨exCcost_isOptimal _, ?_, ?_, ?_, ?_⟩
  · norm_num [printedDestCost, exC, exCcost, numTiers, range_one_eq, discountAt, aC]
  · norm_num [exC, exCcost, numTiers, range_one_eq, discountAt, aC]
  · norm_num [printedYearTotal, printedCarrierCost, printedDestCost, exC, exCcost,
      numTiers, range_one_eq, discountAt, aC]
  · show (carrierModel (exCcost fun _ _ => 5)).objValue aC = 50
    rw [exCcost_objValue]
    norm_num [aC]

/-- **C2**: in both formulations the destination-target constraint is an
equality constraint (relation `.eq`, not `≤`) present in the built model for
every destination (and year, in the tiered case), so every feasible
assignment routes exactly the target into every destination. -/
theorem C2_destination_target_equality :
    (∀ (inp : CarrierInput) (m : Model CVar) (a : CVar → ℚ),
      optimize_shipments inp = .ok m → m.Feasible a →
      ∀ y < inp.num_years, ∀ d ∈ inp.destinations,
        destEqC inp y d ∈ m.constraints ∧ (destEqC inp y d).rel = .eq ∧
        (inp.carriers.map fun c =>
          ((List.range (numTiers inp)).map fun t => a (.ship y c t d)).sum).sum
          = targetAt inp y d)
    ∧ (∀ (winp : WInput) (a : WVar → ℚ),
      (WarehouseShipments.optimize_shipments winp).Feasible a →
      ∀ d ∈ winp.destinations,
        distEqC winp d ∈ (WarehouseShipments.optimize_shipments winp).constraints ∧
        (distEqC winp d).rel = .eq ∧
        (winp.warehouses.map fun i => a (.shipmentCount i d)).sum
          = winp.target_distribution d) := by
  constructor
  · intro inp m a hok ha y hy d hd
    obtain rfl := optimize_ok_eq hok
    exact ⟨mem_carrierConstraints_destEq inp hy hd, rfl, feasible_destEq_sum ha hy hd⟩
  · intro winp a ha d hd
    exact ⟨mem_wConstraints_distEq winp hd, rfl, wFeasible_distEq_sum ha hd⟩

/-- Witness for C2 at the concrete instances `exC` (target 10) and `exW`
(target 5) with their unique feasible points. -/
theorem C2_witness :
    (destEqC exC 0 sD ∈ (carrierModel exC).constraints
      ∧ (destEqC exC 0 sD).rel = .eq
      ∧ (exC.carriers.map fun c =>
          ((List.range (numTiers exC)).map fun t => aC (.ship 0 c t sD)).sum).sum
        = targetAt exC 0 sD)
    ∧ (distEqC exW sD ∈ (WarehouseShipments.optimize_shipments exW).constraints
      ∧ (distEqC exW sD).rel = .eq
      ∧ (exW.warehouses.map fun i => aW (.shipmentCount i sD)).sum
        = exW.target_distribution sD) :=
  ⟨C2_destination_target_equality.1 exC (carrierModel exC) aC rfl
      (exCcost_feasible _) 0 (by decide) sD (by decide),
    C2_destination_target_equality.2 exW aW (exWcost_feasible _) sD (by decide)⟩

/-- **C3 counterexample**: at `exNonMono` — tier thresholds `[5, 3]`, which
are neither strictly increasing nor starting at 0, with consistent list
lengths — `optimize_shipments` raises nothing and returns the fully built
model, contradicting the claim that a `ConfigurationError` is raised before
model construction (no such exception exists anywhere in the source). -/
theorem C3_counterexample :
    optimize_shipments exNonMono = .ok (carrierModel exNonMono) := rfl

/-- **C3 amended**: `optimize_shipments` performs no structural validation
and never raises a `ConfigurationError`.  Non-monotonic or non-zero-starting
tier thresholds (with consistent lengths) are accepted and the model is
returned; a carrier discount list shorter than the tier list makes the
function die with an `IndexError` from the `discount_rate[carrier][tier]`
access during objective construction (after the decision variables have been
created), not with a `ConfigurationError`; whenever every positional list
access is in range the model is always returned. -/
theorem C3_no_validation :
    optimize_shipments exNonMono = .ok (carrierModel exNonMono)
    ∧ optimize_shipments exShortDiscount = .error .indexError
    ∧ (∀ inp : CarrierInput, inp.num_years ≤ inp.shipment_target.length →
        (∀ c ∈ inp.carriers, numTiers inp ≤ (inp.discount_rate c).length) →
        optimize_shipments inp = .ok (carrierModel inp)) := by
  refine ⟨rfl, rfl, ?_⟩
  intro inp h1 h2
  unfold optimize_shipments
  rw [if_pos h1, if_pos h2]

/-- Witness for the amended C3: `exC`'s accesses are in range and the model
is returned. -/
theorem C3_witness : optimize_shipments exC = .ok (carrierModel exC) :=
  C3_no_validation.2.2 exC (by decide) (by decide)

/-- **C4 counterexample**: the network variant's `print_solution` emits, for
the infeasible and the unbounded status, the same two-line message differing
only in the interpolated status name — no per-category diagnosis and no
counts (the non-optimal path reads nothing but `problem.status`), contrary
to the claim that both variants produce a distinct fixed template with
counts per status category. -/
theorem C4_counterexample :
    wNonOptimalLines (-1)
      = some ["Solution Status: Infeasible", "No optimal solution found."]
    ∧ wNonOptimalLines (-2)
      = some ["Solution Status: Unbounded", "No optimal solution found."]
    ∧ (wNonOptimalLines (-1)).map List.tail = (wNonOptimalLines (-2)).map List.tail :=
  ⟨rfl, rfl, rfl⟩

/-- **C4 amended**: the tiered variant's `print_solution` selects a distinct
branch for each status category — infeasible (the only branch that carries
the diagnostic counts: total demand, numbers of carriers, destinations and
years, and the tier thresholds), unbounded, not-solved, solver-undefined and
unrecognized — and the five results are pairwise distinct; the network
variant instead prints, for every non-optimal status, the same generic
two-line message (status name plus a fixed line) with no category-specific
diagnosis and no counts.  Neither path reports any allocation. -/
theorem C4_diagnosis_by_variant :
    (∀ inp : CarrierInput,
      carrierDiagnose inp (-1) = .infeasible (totalDemand inp) inp.carriers.length
        inp.destinations.length inp.num_years inp.tier_min_quantity
      ∧ carrierDiagnose inp (-2) = .unbounded
      ∧ carrierDiagnose inp 0 = .notSolved
      ∧ carrierDiagnose inp (-3) = .undefinedStatus
      ∧ (∀ s : Int, s ≠ 1 → s ≠ -1 → s ≠ -2 → s ≠ 0 → s ≠ -3 →
          carrierDiagnose inp s = .unknown s)
      ∧ [carrierDiagnose inp (-1), carrierDiagnose inp (-2), carrierDiagnose inp 0,
          carrierDiagnose inp (-3), carrierDiagnose inp 7].Pairwise (· ≠ ·))
    ∧ (∀ (s : Int) (l : List String), wNonOptimalLines s = some l →
        l.tail = ["No optimal solution found."]) := by
  constructor
  · intro inp
    refine ⟨rfl, rfl, rfl, rfl, ?_, ?_⟩
    · intro s h1 h2 h3 h4 h5
      unfold carrierDiagnose
      rw [if_neg h1, if_neg h2, if_neg h3, if_neg h4, if_neg h5]
    · simp [carrierDiagnose, List.pairwise_cons]
  · intro s l h
    unfold wNonOptimalLines at h
    split_ifs at h
    obtain ⟨n, _, rfl⟩ := Option.map_eq_some'.mp h
    rfl

/-- Witness for the amended C4: the unknown-status branch at code 7, and
the fixed tail of the network variant's infeasible message. -/
theorem C4_witness :
    carrierDiagnose exC 7 = .unknown 7
    ∧ (["Solution Status: Infeasible", "No optimal solution found."] :
        List String).tail = ["No optimal solution found."] :=
  ⟨(C4_diagnosis_by_variant.1 exC).2.2.2.2.1 7 (by decide) (by decide) (by decide)
      (by decide) (by decide),
    C4_diagnosis_by_variant.2 (-1) _ (by rfl)⟩

/-- **C5**: in every model the tiered builder returns, every feasible
assignment activates exactly one tier flag per (carrier, year) — one flag
equals 1 and all others equal 0 — and every flow variable at an inactive
tier (flag 0) is 0. -/
theorem C5_tier_exclusivity :
    ∀ (inp : CarrierInput) (m : Model CVar) (a : CVar → ℚ),
      optimize_shipments inp = .ok m → m.Feasible a →
      ∀ y < inp.num_years, ∀ c ∈ inp.carriers,
        (∃ t₀, t₀ < numTiers inp ∧ a (.tierFlag y c t₀) = 1 ∧
          ∀ t < numTiers inp, t ≠ t₀ → a (.tierFlag y c t) = 0)
        ∧ ∀ t < numTiers inp, ∀ d ∈ inp.destinations,
            a (.tierFlag y c t) = 0 → a (.ship y c t d) = 0 := by
  intro inp m a hok ha y hy c hc
  obtain rfl := optimize_ok_eq hok
  refine ⟨carrier_tier_exclusive ha hy hc, ?_⟩
  intro t ht d hd hflag
  exact carrier_inactive_flow_zero ha hy hc ht hd hflag

/-- Witness for C5 at `exC`: the single tier flag of `aC` is 1. -/
theorem C5_witness : aC (.tierFlag 0 sC 0) = 1 := by
  obtain ⟨⟨t₀, ht₀, h1, -⟩, -⟩ := C5_tier_exclusivity exC (carrierModel exC) aC rfl
    (exCcost_feasible _) 0 (by decide) sC (by decide)
  have ht : t₀ = 0 := Nat.lt_one_iff.mp ht₀
  rw [ht] at h1
  exact h1

/-- **C6**: for every input and destination, the network model contains the
delivery-tolerance constraint Σ late-indicator × flow ≤ tolerance × Σ flow,
where the late indicator is the input-determined constant
`1 if delivery_estimate[w][d] > target_delivery_days else 0` (not a decision
variable), and consequently every feasible assignment satisfies that
inequality. -/
theorem C6_delivery_tolerance :
    ∀ (winp : WInput), ∀ d ∈ winp.destinations,
      deliveryC winp d ∈ (WarehouseShipments.optimize_shipments winp).constraints
      ∧ (∀ i ∈ winp.warehouses, deliveryTargetFailure winp i d
          = if winp.delivery_estimate i d > winp.target_delivery_days then 1 else 0)
      ∧ ∀ a : WVar → ℚ, (WarehouseShipments.optimize_shipments winp).Feasible a →
          (winp.warehouses.map fun i =>
            deliveryTargetFailure winp i d * a (.shipmentCount i d)).sum
          ≤ winp.delivery_tolerance *
            (winp.warehouses.map fun i => a (.shipmentCount i d)).sum := by
  intro winp d hd
  exact ⟨mem_wConstraints_delivery winp hd, fun i _ => rfl,
    fun a ha => wFeasible_delivery ha hd⟩

/-- Witness for C6 at `exW` with its unique feasible point `aW`. -/
theorem C6_witness :
    deliveryC exW sD ∈ (WarehouseShipments.optimize_shipments exW).constraints
    ∧ (exW.warehouses.map fun i =>
        deliveryTargetFailure exW i sD * aW (.shipmentCount i sD)).sum
      ≤ exW.delivery_tolerance *
        (exW.warehouses.map fun i => aW (.shipmentCount i sD)).sum :=
  ⟨(C6_delivery_tolerance exW sD (by decide)).1,
    (C6_delivery_tolerance exW sD (by decide)).2.2 aW (exWcost_feasible _)⟩

/-- **C7 counterexample**: at the network instance `exW0` — single
destination `"d"` with target 0 — the assignment `aW0` (zero flow, but the
warehouse activation set to 1) is feasible and has objective value 3 (the
fixed warehouse cost), refuting the claim that every feasible assignment of
the built model has objective value 0. -/
theorem C7_counterexample :
    (WarehouseShipments.optimize_shipments exW0).Feasible aW0
    ∧ (WarehouseShipments.optimize_shipments exW0).objValue aW0 = 3 :=
  ⟨exW0_feasible, exW0_objValue⟩

/-- **C7 amended**: with a single zero-target destination, every feasible
assignment of either model has all flow variables 0; the tiered objective is
then 0 and the network objective reduces to the fixed-activation part
Σ usage × warehouse_cost (so it is 0 only when no warehouse is activated);
the all-zero assignment — activating nothing — is feasible in the network
model (given non-negative capacities), so no warehouse activation is forced;
but in the tiered model the exactly-one-tier constraint still forces a tier
flag to 1 per (carrier, year): at `exC0` every feasible assignment has the
single tier-0 flag equal to 1. -/
theorem C7_zero_target_amended :
    (∀ (inp : CarrierInput) (m : Model CVar) (a : CVar → ℚ) (d : Str),
      optimize_shipments inp = .ok m → m.Feasible a → inp.destinations = [d] →
      (∀ y < inp.num_years, targetAt inp y d = 0) →
      (∀ y < inp.num_years, ∀ c ∈ inp.carriers, ∀ t < numTiers inp,
        a (.ship y c t d) = 0) ∧ m.objValue a = 0)
    ∧ (∀ (winp : WInput) (a : WVar → ℚ) (d : Str),
      (WarehouseShipments.optimize_shipments winp).Feasible a →
      winp.destinations = [d] → winp.target_distribution d = 0 →
      (∀ i ∈ winp.warehouses, a (.shipmentCount i d) = 0)
      ∧ (WarehouseShipments.optimize_shipments winp).objValue a
          = (winp.warehouses.map fun i =>
              winp.warehouse_cost i * a (.warehouseUsage i)).sum)
    ∧ (∀ winp : WInput,
      (∀ i ∈ winp.warehouses, ∀ j ∈ winp.destinations,
        0 ≤ winp.shipment_capacity i j) →
      (∀ j ∈ winp.destinations, winp.target_distribution j = 0) →
      (WarehouseShipments.optimize_shipments winp).Feasible (fun _ => 0))
    ∧ (∀ b : CVar → ℚ, (carrierModel exC0).Feasible b →
        b (.tierFlag 0 sC 0) = 1) := by
  refine ⟨?_, ?_, w_zero_assignment_feasible, exC0_forced_flag⟩
  · intro inp m a d hok ha hdest h0
    obtain rfl := optimize_ok_eq hok
    constructor
    · intro y hy c hc t ht
      exact carrier_zero_target_flows ha hy (hdest ▸ List.mem_singleton.mpr rfl)
        (h0 y hy) c hc t ht
    · exact carrier_zero_target_objValue ha hdest h0
  · intro winp a d ha hdest h0
    exact ⟨w_zero_target_flows ha (hdest ▸ List.mem_singleton.mpr rfl) h0,
      w_zero_target_objValue ha hdest h0⟩

/-- Witness for the amended C7 at `exC0`, `exW0` and their points. -/
theorem C7_witness :
    (carrierModel exC0).objValue aC0 = 0
    ∧ (WarehouseShipments.optimize_shipments exW0).Feasible (fun _ => 0)
    ∧ aC0 (.tierFlag 0 sC 0) = 1 := by
  refine ⟨?_, ?_, C7_zero_target_amended.2.2.2 aC0 exC0_feasible⟩
  · refine (C7_zero_target_amended.1 exC0 (carrierModel exC0) aC0 sD rfl
      exC0_feasible rfl ?_).2
    intro y hy
    have hy0 : y = 0 := Nat.lt_one_iff.mp hy
    rw [hy0]
    rfl
  · refine C7_zero_target_amended.2.2.1 exW0 ?_ ?_
    · intro i _ j _
      show (0 : ℚ) ≤ 5
      norm_num
    · intro j _
      rfl

/-- **C8**: increasing one unit-cost entry (by `δ ≥ 0`) leaves both models'
variables and constraints — hence their feasible sets — unchanged, and the
optimal objective value can only grow, in both formulations (the carrier
case uses the spec's input-validation guarantee that discount multipliers
are non-negative). -/
theorem C8_cost_monotonicity :
    (∀ (inp : CarrierInput) (c₀ d₀ : Str) (δ : ℚ) (a a' : CVar → ℚ),
      0 ≤ δ →
      (∀ c ∈ inp.carriers, ∀ t < numTiers inp, 0 ≤ discountAt inp c t) →
      (carrierModel inp).IsOptimal a →
      (carrierModel { inp with
        shipment_cost := bumpCost inp.shipment_cost c₀ d₀ δ }).IsOptimal a' →
      (∀ b, (carrierModel { inp with
          shipment_cost := bumpCost inp.shipment_cost c₀ d₀ δ }).Feasible b
        ↔ (carrierModel inp).Feasible b)
      ∧ (carrierModel inp).objValue a
        ≤ (carrierModel { inp with
            shipment_cost := bumpCost inp.shipment_cost c₀ d₀ δ }).objValue a')
    ∧ (∀ (winp : WInput) (w₀ d₀ : Str) (δ : ℚ) (a a' : WVar → ℚ),
      0 ≤ δ →
      (WarehouseShipments.optimize_shipments winp).IsOptimal a →
      (WarehouseShipments.optimize_shipments { winp with
        shipment_cost := bumpCost winp.shipment_cost w₀ d₀ δ }).IsOptimal a' →
      (∀ b, (WarehouseShipments.optimize_shipments { winp with
          shipment_cost := bumpCost winp.shipment_cost w₀ d₀ δ }).Feasible b
        ↔ (WarehouseShipments.optimize_shipments winp).Feasible b)
      ∧ (WarehouseShipments.optimize_shipments winp).objValue a
        ≤ (WarehouseShipments.optimize_shipments { winp with
            shipment_cost := bumpCost winp.shipment_cost w₀ d₀ δ }).objValue a') := by
  constructor
  · intro inp c₀ d₀ δ a a' hδ hdisc hopt hopt'
    refine ⟨carrier_feasible_bump_iff inp c₀ d₀ δ, ?_⟩
    have hfeas' : (carrierModel inp).Feasible a' :=
      (carrier_feasible_bump_iff inp c₀ d₀ δ a').mp hopt'.1
    calc (carrierModel inp).objValue a
        ≤ (carrierModel inp).objValue a' := hopt.2 a' hfeas'
      _ ≤ _ := carrier_obj_mono inp c₀ d₀ δ hδ hdisc a' hfeas'
  · intro winp w₀ d₀ δ a a' hδ hopt hopt'
    refine ⟨w_feasible_bump_iff winp w₀ d₀ δ, ?_⟩
    have hfeas' : (WarehouseShipments.optimize_shipments winp).Feasible a' :=
      (w_feasible_bump_iff winp w₀ d₀ δ a').mp hopt'.1
    calc (WarehouseShipments.optimize_shipments winp).objValue a
        ≤ (WarehouseShipments.optimize_shipments winp).objValue a' :=
          hopt.2 a' hfeas'
      _ ≤ _ := w_obj_mono winp w₀ d₀ δ hδ a' hfeas'

/-- Witness for C8: bumping the single unit cost of `exC` (5 → 6) and of
`exW` (2 → 3) by 1; the shared optimal point is `aC` resp. `aW`. -/
theorem C8_witness :
    (carrierModel exC).objValue aC
      ≤ (carrierModel { exC with
          shipment_cost := bumpCost exC.shipment_cost sC sD 1 }).objValue aC
    ∧ (WarehouseShipments.optimize_shipments exW).objValue aW
      ≤ (WarehouseShipments.optimize_shipments { exW with
          shipment_cost := bumpCost exW.shipment_cost sW sD 1 }).objValue aW := by
  constructor
  · refine (C8_cost_monotonicity.1 exC sC sD 1 aC aC (by norm_num) ?_
      (exCcost_isOptimal _) (exCcost_isOptimal (bumpCost (fun _ _ => 5) sC sD 1))).2
    intro c _ t ht
    have ht0 : t = 0 := Nat.lt_one_iff.mp ht
    rw [ht0]
    show (0 : ℚ) ≤ 1
    norm_num
  · exact (C8_cost_monotonicity.2 exW sW sD 1 aW aW (by norm_num)
      (exWcost_isOptimal _) (exWcost_isOptimal (bumpCost (fun _ _ => 2) sW sD 1))).2

/-- **C9**: the `optimize_shipments` of `src/carrier_earned_discount.py` and
the one of `src/problems/carrier_earned_discount/main.py` (transcribed
side by side above from the two files, whose lines 15–112 are identical)
build, for every input, the same model — the same variable declarations
(indices, names, bounds, categories), the same objective expression and the
same constraint list — and fail identically. -/
theorem C9_duplicate_builder_equal :
    ∀ inp : CarrierInput,
      ProblemsCarrierEarnedDiscount.optimize_shipments inp = optimize_shipments inp
      ∧ ProblemsCarrierEarnedDiscount.carrierModel inp = carrierModel inp :=
  fun _ => ⟨rfl, rfl⟩

/-- **C10**: the network `print_solution` recovers keys by stripping
`shipment_count_` and splitting on underscores, taking the first two
fields.  When no warehouse or destination name contains an underscore, the
extraction loop completes and the rebuilt `shipment_counts` dict maps each
(warehouse, destination) pair to exactly the truncated solver value of its
flow variable; a name containing an underscore can be mis-keyed, as with
warehouse `"a_b"` and destination `"c"`, whose variable parses to the wrong
key `("a", "b")`. -/
theorem C10_extraction :
    (∀ (winp : WInput) (a : WVar → ℚ),
      (∀ i ∈ winp.warehouses, '_' ∉ i) → (∀ j ∈ winp.destinations, '_' ∉ j) →
      ∃ st', extractSolution (WarehouseShipments.optimize_shipments winp) a
          = some st' ∧
        ∀ i ∈ winp.warehouses, ∀ j ∈ winp.destinations,
          st'.shipment_counts (i, j) = some (pytrunc (a (.shipmentCount i j))))
    ∧ parseShipmentKey (shipCountName ("a_b".data) ("c".data))
        = some ("a".data, "b".data)
    ∧ (("a".data, "b".data) : Str × Str) ≠ ("a_b".data, "c".data) :=
  ⟨extraction_correct, by decide, by decide⟩

/-- Witness for C10 at `exW` (underscore-free names `"w"`, `"d"`). -/
theorem C10_witness :
    ∃ st', extractSolution (WarehouseShipments.optimize_shipments exW) aW
        = some st' ∧
      ∀ i ∈ exW.warehouses, ∀ j ∈ exW.destinations,
        st'.shipment_counts (i, j) = some (pytrunc (aW (.shipmentCount i j))) :=
  C10_extraction.1 exW aW (by decide) (by decide)
